import Mathlib

set_option maxHeartbeats 1000000

/-! Verification of the Brewery data-lake pipeline.

This file is a shallow embedding of the Silver transformation pipeline
(src/silver.py), the Gold aggregation engine (src/gold.py), the
data-quality gate (src/data_quality.py) and the Bronze loader, together
with theorems about the behaviour stated in the specification.

Modelling conventions:
- a pandas DataFrame is a column list plus a list of records; a record is
  an association list from field name to `Option Value`, `none` standing
  for null/NaN (a record missing a field reads as null there, as pandas
  backfills NaN for ragged input);
- numbers are rationals; Python float rounding is modelled as exact
  rational rounding (no claim depends on float representation);
- code that can raise is modelled in `Except String`; the error string
  stands for the exception;
- sorting uses a stable insertion sort (`sortByLe`), standing in for the
  stable sorts pandas and Python use; no claim in scope depends on tie
  order, only on membership and on which element a sorted list ends with.
-/

/-- Scalar cell values of a tabular dataset: strings, numbers (modelled as
rationals) and booleans. -/
inductive Value where
  | str (s : String)
  | num (q : ℚ)
  | bool (b : Bool)
deriving Repr, DecidableEq

/-- A record: an association list from field name to value, where `none`
is null/NaN. -/
abbrev Row := List (String × Option Value)

/-- A pandas DataFrame: an ordered column list plus a list of records. -/
structure DataFrame where
  cols : List String
  rows : List Row
deriving Repr, DecidableEq

/-- Value of field `c` in record `r`; a missing field reads as null. -/
def cellR (r : Row) (c : String) : Option Value :=
  match r.find? (fun p => p.1 == c) with
  | some p => p.2
  | none => none

/-- Assign field `c` of record `r` to `v`: update in place when the field
is present, append it otherwise (one row of a pandas column assignment). -/
def setCellA (r : Row) (c : String) (v : Option Value) : Row :=
  if r.any (fun p => p.1 == c) then
    r.map (fun p => if p.1 == c then (c, v) else p)
  else
    r ++ [(c, v)]

/-- The column `c` of a DataFrame as its list of cells; a DataFrame whose
column list does not carry `c` has no values in `c`. -/
def DataFrame.getCol (df : DataFrame) (c : String) : List (Option Value) :=
  if df.cols.contains c then df.rows.map (fun r => cellR r c) else []

/-- Pandas `df[c] = df[c].map f` on an existing column; identity when the
column is absent. -/
def setColWith (df : DataFrame) (c : String) (f : Option Value → Option Value) : DataFrame :=
  if df.cols.contains c then
    { df with rows := df.rows.map (fun r => setCellA r c (f (cellR r c))) }
  else df

/-- Pandas `df[c] = <expression of the row>`: appends the column at the end
when new, overwrites it otherwise. -/
def assignCol (df : DataFrame) (c : String) (f : Row → Option Value) : DataFrame :=
  { cols := if df.cols.contains c then df.cols else df.cols ++ [c],
    rows := df.rows.map (fun r => setCellA r c (f r)) }

/-- The closed brewery-type vocabulary of silver.py (KNOWN_BREWERY_TYPES). -/
def KNOWN_BREWERY_TYPES : List String :=
  ["micro", "nano", "regional", "brewpub", "large",
   "planning", "bar", "contract", "proprietor", "taproom", "closed"]

/-- Keep, for each distinct value of `key`, only the last record having it,
in its original position: pandas `drop_duplicates(subset, keep="last")`.
NaN keys compare equal to each other, as in pandas `duplicated`. -/
def keepLastBy (key : Row → Option Value) : List Row → List Row
  | [] => []
  | r :: rs =>
    let acc := keepLastBy key rs
    if acc.any (fun r2 => decide (key r2 = key r)) then acc else r :: acc

/-- Transform 1 (silver.deduplicate): drop duplicated `id`s keeping the
last occurrence and report the number of records removed. Pandas raises
`KeyError` when the subset column `id` is absent from the DataFrame. -/
def deduplicate (df : DataFrame) : Except String (DataFrame × Nat) :=
  if df.cols.contains "id" then
    let kept := keepLastBy (fun r => cellR r "id") df.rows
    Except.ok ({ df with rows := kept }, df.rows.length - kept.length)
  else
    Except.error "KeyError: [\u0027id\u0027]"

/-- A column is string-typed when it holds at least one string and nothing
but strings and nulls: the dtype a JSON-ingested text column gets under
the string-dtype inference that `select_dtypes(include="str")` selects. -/
def isStrCol (df : DataFrame) (c : String) : Bool :=
  (df.getCol c).all (fun v => match v with
    | none => true
    | some (Value.str _) => true
    | some _ => false)
  && (df.getCol c).any (fun v => match v with
    | some (Value.str _) => true
    | _ => false)

/-- Whitespace trimming at the character level (Python `str.strip()`;
character-level so that concrete examples evaluate inside the kernel). -/
def trimChars (l : List Char) : List Char :=
  ((l.dropWhile Char.isWhitespace).reverse.dropWhile Char.isWhitespace).reverse

/-- Python `str.strip()`. -/
def strTrim (s : String) : String := String.mk (trimChars s.toList)

/-- Python `str.lower()`. -/
def strLower (s : String) : String := String.mk (s.toList.map Char.toLower)

/-- Python `str.upper()`. -/
def strUpper (s : String) : String := String.mk (s.toList.map Char.toUpper)

/-- Trim both ends of a string cell (`.str.strip()`); nulls stay null. -/
def stripCell : Option Value → Option Value
  | some (Value.str s) => some (Value.str (strTrim s))
  | v => v

/-- Transform 2 (silver.clean_strings): trim leading/trailing whitespace on
every string-typed column (`select_dtypes` then `.str.strip()` per column). -/
def clean_strings (df : DataFrame) : DataFrame :=
  (df.cols.filter (fun c => isStrCol df c)).foldl
    (fun d c => setColWith d c stripCell) df

/-- Python `str(x)` for a scalar cell value (numeric rendering is the Lean
rational printer; no claim depends on its exact spelling). -/
def pyStr : Value → String
  | Value.str s => s
  | Value.num q => toString q
  | Value.bool b => if b then "True" else "False"

/-- Transform 3 (silver.normalize_phone): keep only the digits of the
stringified value; an empty digit string becomes null. -/
def normalize_phone (df : DataFrame) : DataFrame :=
  if df.cols.contains "phone" then
    setColWith df "phone" (fun v =>
      match v with
      | none => none
      | some x =>
        let ds := String.mk ((pyStr x).toList.filter Char.isDigit)
        if ds = "" then none else some (Value.str ds))
  else df

/-- Transform 4 (silver.normalize_postal_code): trim and upper-case; the
pandas `.str` accessor turns non-string values into null. -/
def normalize_postal_code (df : DataFrame) : DataFrame :=
  if df.cols.contains "postal_code" then
    setColWith df "postal_code" (fun v =>
      match v with
      | some (Value.str s) => some (Value.str (strUpper (strTrim s)))
      | _ => none)
  else df

/-- Digits of a decimal literal folded into a natural number. -/
def natOfDigits (l : List Char) : Nat :=
  l.foldl (fun acc c => acc * 10 + (c.toNat - 48)) 0

/-- Parse a decimal literal (optional sign, digits, optional fraction):
the fragment of `pandas.to_numeric` the coordinate columns exercise,
implemented at the character level. -/
def parseDecimal (s : String) : Option ℚ :=
  let t := trimChars s.toList
  let sign : ℚ := match t with
    | '-' :: _ => -1
    | _ => 1
  let body := match t with
    | '-' :: rest => rest
    | '+' :: rest => rest
    | _ => t
  match body.splitOn '.' with
  | [ip] =>
    if ip ≠ [] ∧ ip.all Char.isDigit then
      some (sign * (natOfDigits ip : ℚ))
    else none
  | [ip, fp] =>
    if (ip ≠ [] ∨ fp ≠ []) ∧ ip.all Char.isDigit ∧ fp.all Char.isDigit then
      some (sign * ((natOfDigits ip : ℚ) +
        (natOfDigits fp : ℚ) / (10 ^ fp.length : ℚ)))
    else none
  | _ => none

/-- pandas `to_numeric(errors="coerce")` on one cell: numbers pass through,
booleans become 0/1, parseable strings are parsed, anything else is null. -/
def toNumericCell : Option Value → Option ℚ
  | some (Value.num q) => some q
  | some (Value.bool b) => some (if b then 1 else 0)
  | some (Value.str s) => parseDecimal s
  | none => none

/-- Coerce a coordinate cell to numeric and null it when the result is not
in `[-bound, bound]` (null coerces to null and stays null). -/
def coerceRange (bound : ℚ) (v : Option Value) : Option Value :=
  match toNumericCell v with
  | some q => if -bound ≤ q ∧ q ≤ bound then some (Value.num q) else none
  | none => none

/-- Longitude half of silver.validate_coordinates (runs first, only when
the column is present). -/
def validate_lon (df : DataFrame) : DataFrame :=
  if df.cols.contains "longitude" then setColWith df "longitude" (coerceRange 180) else df

/-- Latitude half of silver.validate_coordinates (runs second, only when
the column is present). -/
def validate_lat (df : DataFrame) : DataFrame :=
  if df.cols.contains "latitude" then setColWith df "latitude" (coerceRange 90) else df

/-- Transform 5 (silver.validate_coordinates): coerce each coordinate
column to numeric and null the out-of-range values; longitude first, then
latitude, as in the source. -/
def validate_coordinates (df : DataFrame) : DataFrame :=
  validate_lat (validate_lon df)

/-- Transform 6 (silver.standardize_brewery_type): lower-case and trim,
then map anything outside the known vocabulary to "unknown"; nulls and
non-strings, which the `.apply` lambda sees as NaN, also become "unknown". -/
def standardize_brewery_type (df : DataFrame) : DataFrame :=
  if df.cols.contains "brewery_type" then
    setColWith df "brewery_type" (fun v =>
      match v with
      | some (Value.str s) =>
        let t := strTrim (strLower s)
        if KNOWN_BREWERY_TYPES.contains t then some (Value.str t)
        else some (Value.str "unknown")
      | _ => some (Value.str "unknown"))
  else df

/-- Transform 7 (silver.drop_redundant_columns): drop address_2, address_3
and street when present; absence is not an error. -/
def drop_redundant_columns (df : DataFrame) : DataFrame :=
  { cols := df.cols.filter (fun c => ¬ ["address_2", "address_3", "street"].contains c),
    rows := df.rows.map (fun r => r.filter (fun p => ¬ ["address_2", "address_3", "street"].contains p.1)) }

/-- Transform 8 (silver.add_metadata): stamp every record with the run
timestamp, passed in as a parameter since the source reads the clock. -/
def add_metadata (ts : String) (df : DataFrame) : DataFrame :=
  assignCol df "processed_at" (fun _ => some (Value.str ts))

/-- The full Silver pipeline (silver.transform): the eight transforms in
source order; only deduplication can fail (missing `id` column). -/
def transform (ts : String) (df : DataFrame) : Except String DataFrame := do
  let (d, _) ← deduplicate df
  Except.ok (add_metadata ts (drop_redundant_columns (standardize_brewery_type
    (validate_coordinates (normalize_postal_code (normalize_phone (clean_strings d)))))))


/-! Basic lemmas about cells, column updates and column reads. -/

/-- Unfolding of `setCellA` when the field is present. -/
theorem setCellA_eq_map (r : Row) (c : String) (v : Option Value)
    (h : r.any (fun p => p.1 == c) = true) :
    setCellA r c v = r.map (fun p => if p.1 == c then (c, v) else p) := by
  unfold setCellA
  rw [h]
  simp

/-- Unfolding of `setCellA` when the field is absent. -/
theorem setCellA_eq_append (r : Row) (c : String) (v : Option Value)
    (h : r.any (fun p => p.1 == c) = false) :
    setCellA r c v = r ++ [(c, v)] := by
  unfold setCellA
  rw [h]
  simp

/-- Auxiliary: the in-place update of field `c` does not disturb lookups of
another field. -/
theorem find?_map_update_ne (r : Row) (c c' : String) (v : Option Value) (h : c' ≠ c) :
    (r.map (fun p => if p.1 == c then (c, v) else p)).find? (fun p => p.1 == c') =
      r.find? (fun p => p.1 == c') := by
  induction r with
  | nil => rfl
  | cons p t ih =>
    by_cases hp : (p.1 == c) = true
    · have hp' : p.1 = c := by simpa using hp
      have hcc : ((c, v).1 == c') = false := by
        simp only [beq_eq_false_iff_ne, ne_eq]
        exact fun hc => h hc.symm
      have hpc' : (p.1 == c') = false := by
        simp only [beq_eq_false_iff_ne, ne_eq, hp']
        exact fun hc => h hc.symm
      simp only [List.map_cons, if_pos hp]
      simp only [List.find?_cons, hcc, hpc']
      exact ih
    · have hp'' : (p.1 == c) = false := by simpa using hp
      simp only [List.map_cons, hp'', Bool.false_eq_true, if_false]
      by_cases hc' : (p.1 == c') = true
      · simp only [List.find?_cons, hc']
      · have hc'' : (p.1 == c') = false := by simpa using hc'
        simp only [List.find?_cons, hc'']
        exact ih

/-- Looking up a field whose name heads the record reads that pair. -/
theorem cellR_cons_of_pos (p : String × Option Value) (t : Row) (c : String)
    (h : (p.1 == c) = true) : cellR (p :: t) c = p.2 := by
  simp [cellR, List.find?_cons, h]

/-- Looking up a field skips pairs with other names. -/
theorem cellR_cons_of_neg (p : String × Option Value) (t : Row) (c : String)
    (h : (p.1 == c) = false) : cellR (p :: t) c = cellR t c := by
  simp [cellR, List.find?_cons, h]

/-- Reading the field just assigned gives the assigned value. -/
theorem cellR_setCellA_self (r : Row) (c : String) (v : Option Value) :
    cellR (setCellA r c v) c = v := by
  by_cases hany : r.any (fun p => p.1 == c) = true
  · rw [setCellA_eq_map r c v hany]
    induction r with
    | nil => simp at hany
    | cons p t ih =>
      by_cases hp : (p.1 == c) = true
      · rw [List.map_cons, if_pos hp]
        exact cellR_cons_of_pos _ _ _ (by simp)
      · have hp' : (p.1 == c) = false := by
          cases h2 : (p.1 == c) with
          | true => exact absurd h2 hp
          | false => rfl
        simp only [List.any_cons, hp', Bool.false_or] at hany
        rw [List.map_cons, if_neg hp, cellR_cons_of_neg _ _ _ hp']
        exact ih hany
  · have hany' : r.any (fun p => p.1 == c) = false := by
      cases h2 : r.any (fun p => p.1 == c) with
      | true => exact absurd h2 hany
      | false => rfl
    rw [setCellA_eq_append r c v hany']
    have hnone : r.find? (fun p => p.1 == c) = none := by
      rw [List.find?_eq_none]
      intro x hx hpx
      exact hany (List.any_eq_true.mpr ⟨x, hx, hpx⟩)
    simp [cellR, List.find?_append, hnone, List.find?_cons]

/-- Assigning one field leaves every other field unchanged. -/
theorem cellR_setCellA_ne (r : Row) (c c' : String) (v : Option Value) (h : c' ≠ c) :
    cellR (setCellA r c v) c' = cellR r c' := by
  have hcc : ((c, v).1 == c') = false := by
    simp only [beq_eq_false_iff_ne, ne_eq]
    exact fun hc => h hc.symm
  by_cases hany : r.any (fun p => p.1 == c) = true
  · rw [setCellA_eq_map r c v hany]
    unfold cellR
    rw [find?_map_update_ne r c c' v h]
  · have hany' : r.any (fun p => p.1 == c) = false := by
      cases h2 : r.any (fun p => p.1 == c) with
      | true => exact absurd h2 hany
      | false => rfl
    rw [setCellA_eq_append r c v hany']
    unfold cellR
    rw [List.find?_append]
    have h2 : List.find? (fun p => p.1 == c') [(c, v)] = none := by
      simp [List.find?_cons, hcc]
    rw [h2, Option.or_none]

/-- setColWith keeps the column list. -/
theorem setColWith_cols (df : DataFrame) (c : String) (f : Option Value → Option Value) :
    (setColWith df c f).cols = df.cols := by
  unfold setColWith; split <;> rfl

/-- setColWith keeps the record count. -/
theorem setColWith_rows_length (df : DataFrame) (c : String) (f : Option Value → Option Value) :
    (setColWith df c f).rows.length = df.rows.length := by
  unfold setColWith; split <;> simp

/-- Reading the rewritten column gives the mapped cells. -/
theorem getCol_setColWith_self (df : DataFrame) (c : String) (f : Option Value → Option Value)
    (h : df.cols.contains c = true) :
    (setColWith df c f).getCol c = (df.getCol c).map f := by
  unfold setColWith DataFrame.getCol
  simp only [h, if_true, List.map_map]
  apply List.map_congr_left
  intro r _
  simp [Function.comp, cellR_setCellA_self]

/-- Rewriting one column leaves every other column unchanged. -/
theorem getCol_setColWith_ne (df : DataFrame) (c c' : String) (f : Option Value → Option Value)
    (h : c' ≠ c) :
    (setColWith df c f).getCol c' = df.getCol c' := by
  unfold setColWith
  by_cases hc : df.cols.contains c = true
  · rw [if_pos hc]
    unfold DataFrame.getCol
    by_cases hc' : df.cols.contains c' = true
    · simp only [hc', if_true, List.map_map]
      apply List.map_congr_left
      intro r _
      simp [Function.comp, cellR_setCellA_ne _ _ _ _ h]
    · rw [if_neg hc', if_neg hc']
  · rw [if_neg hc]

/-! Deduplication: last-occurrence-wins (claim C3). -/

/-- getLast? of a cons with nonempty tail is getLast? of the tail. -/
theorem getLast?_cons_of_ne_nil {α : Type} (a : α) (l : List α) (h : l ≠ []) :
    (a :: l).getLast? = l.getLast? := by
  cases l with
  | nil => exact absurd rfl h
  | cons b t => simp [List.getLast?_cons_cons]

/-- The records `keepLastBy` keeps for one key value are exactly the last
input record carrying that key value. -/
theorem keepLastBy_filter (key : Row → Option Value) (v : Option Value) :
    ∀ rows : List Row,
      (keepLastBy key rows).filter (fun r => decide (key r = v)) =
        ((rows.filter (fun r => decide (key r = v))).getLast?).toList := by
  intro rows
  induction rows with
  | nil => simp [keepLastBy]
  | cons r rs ih =>
    simp only [keepLastBy]
    by_cases hany : (keepLastBy key rs).any (fun r2 => decide (key r2 = key r)) = true
    · rw [if_pos hany]
      by_cases hv : key r = v
      · rw [List.filter_cons_of_pos (by simp [hv])]
        obtain ⟨r2, hr2mem, hr2key⟩ : ∃ r2 ∈ keepLastBy key rs, key r2 = key r := by
          obtain ⟨x, hx, hpx⟩ := List.any_eq_true.mp hany
          exact ⟨x, hx, of_decide_eq_true hpx⟩
        have hne : rs.filter (fun r' => decide (key r' = v)) ≠ [] := by
          intro hnil
          have hmem : r2 ∈ (keepLastBy key rs).filter (fun r' => decide (key r' = v)) := by
            rw [List.mem_filter]
            exact ⟨hr2mem, by simp [hr2key, hv]⟩
          rw [ih, hnil] at hmem
          simp at hmem
        rw [getLast?_cons_of_ne_nil _ _ hne]
        exact ih
      · rw [List.filter_cons_of_neg (by simp [hv])]
        exact ih
    · rw [if_neg hany]
      by_cases hv : key r = v
      · rw [List.filter_cons_of_pos (by simp [hv]), List.filter_cons_of_pos (by simp [hv])]
        have hfilnil : (keepLastBy key rs).filter (fun r' => decide (key r' = v)) = [] := by
          rw [List.filter_eq_nil_iff]
          intro a ha hpa
          have hav : key a = key r := by
            rw [of_decide_eq_true hpa, hv]
          exact hany (List.any_eq_true.mpr ⟨a, ha, decide_eq_true hav⟩)
        have hrsnil : rs.filter (fun r' => decide (key r' = v)) = [] := by
          have h2 := ih
          rw [hfilnil] at h2
          cases hgl : (rs.filter (fun r' => decide (key r' = v))).getLast? with
          | none => exact List.getLast?_eq_none_iff.mp hgl
          | some x =>
            rw [hgl] at h2
            simp at h2
        rw [hfilnil, hrsnil]
        rfl
      · rw [List.filter_cons_of_neg (by simp [hv]), List.filter_cons_of_neg (by simp [hv])]
        exact ih

/-- After `keepLastBy` the key values carry no duplicates. -/
theorem keepLastBy_keys_nodup (key : Row → Option Value) :
    ∀ rows : List Row, ((keepLastBy key rows).map key).Nodup := by
  intro rows
  induction rows with
  | nil => simp [keepLastBy]
  | cons r rs ih =>
    simp only [keepLastBy]
    by_cases hany : (keepLastBy key rs).any (fun r2 => decide (key r2 = key r)) = true
    · rw [if_pos hany]
      exact ih
    · rw [if_neg hany]
      rw [List.map_cons, List.nodup_cons]
      refine ⟨?_, ih⟩
      intro hmem
      obtain ⟨r2, hr2, hk⟩ := List.mem_map.mp hmem
      exact hany (List.any_eq_true.mpr ⟨r2, hr2, decide_eq_true hk⟩)

/-- C3: for every Dataset with an `id` column, Deduplicate succeeds, the
multiset of `id` values afterwards has no duplicates, the survivor for
each `id` value is exactly the last input record carrying it, and the
reported removed count is the difference in record counts. -/
theorem C3_deduplicate_last_wins (df : DataFrame) (h : df.cols.contains "id" = true) :
    ∃ d n, deduplicate df = Except.ok (d, n) ∧
      d.cols = df.cols ∧
      (d.rows.map (fun r => cellR r "id")).Nodup ∧
      (∀ v : Option Value,
        d.rows.filter (fun r => decide (cellR r "id" = v)) =
          ((df.rows.filter (fun r => decide (cellR r "id" = v))).getLast?).toList) ∧
      n = df.rows.length - d.rows.length := by
  refine ⟨{ df with rows := keepLastBy (fun r => cellR r "id") df.rows },
    df.rows.length - (keepLastBy (fun r => cellR r "id") df.rows).length, ?_, rfl, ?_, ?_, rfl⟩
  · unfold deduplicate
    rw [if_pos h]
  · exact keepLastBy_keys_nodup _ df.rows
  · intro v
    exact keepLastBy_filter _ v df.rows

/-- A concrete Dataset with a duplicated id. -/
def dedupExampleDf : DataFrame :=
  { cols := ["id", "name"],
    rows := [
      [("id", some (Value.str "1")), ("name", some (Value.str "Alpha"))],
      [("id", some (Value.str "2")), ("name", some (Value.str "Beta"))],
      [("id", some (Value.str "1")), ("name", some (Value.str "Gamma"))]] }

/-- Witness for C3 at a concrete Dataset with one duplicated id. -/
theorem C3_deduplicate_last_wins_witness :
    ∃ d n, deduplicate dedupExampleDf = Except.ok (d, n) ∧
      d.cols = dedupExampleDf.cols ∧
      (d.rows.map (fun r => cellR r "id")).Nodup ∧
      (∀ v : Option Value,
        d.rows.filter (fun r => decide (cellR r "id" = v)) =
          ((dedupExampleDf.rows.filter (fun r => decide (cellR r "id" = v))).getLast?).toList) ∧
      n = dedupExampleDf.rows.length - d.rows.length :=
  C3_deduplicate_last_wins dedupExampleDf (by decide)

/-! Coordinate validation (claim C4). -/

/-- coerceRange only produces nulls or in-range numbers. -/
theorem coerceRange_ok (bound : ℚ) (v : Option Value) :
    coerceRange bound v = none ∨
      ∃ q, coerceRange bound v = some (Value.num q) ∧ -bound ≤ q ∧ q ≤ bound := by
  unfold coerceRange
  cases toNumericCell v with
  | none => exact Or.inl rfl
  | some q =>
    by_cases h : -bound ≤ q ∧ q ≤ bound
    · refine Or.inr ⟨q, ?_, h.1, h.2⟩
      show (if -bound ≤ q ∧ q ≤ bound then some (Value.num q) else none) = some (Value.num q)
      rw [if_pos h]
    · refine Or.inl ?_
      show (if -bound ≤ q ∧ q ≤ bound then some (Value.num q) else none) = none
      rw [if_neg h]

/-- A cell that is non-numeric or out of range coerces to null. -/
theorem coerceRange_bad (bound : ℚ) (v : Option Value)
    (h : ∀ q, toNumericCell v = some q → q < -bound ∨ bound < q) :
    coerceRange bound v = none := by
  unfold coerceRange
  cases hn : toNumericCell v with
  | none => rfl
  | some q =>
    show (if -bound ≤ q ∧ q ≤ bound then some (Value.num q) else none) = none
    rw [if_neg]
    intro ⟨h1, h2⟩
    rcases h q hn with h3 | h3
    · exact absurd h1 (not_le.mpr h3)
    · exact absurd h2 (not_le.mpr h3)

/-- validate_lon keeps the column list. -/
theorem validate_lon_cols (df : DataFrame) : (validate_lon df).cols = df.cols := by
  unfold validate_lon
  split
  · rw [setColWith_cols]
  · rfl

/-- validate_lat keeps the column list. -/
theorem validate_lat_cols (df : DataFrame) : (validate_lat df).cols = df.cols := by
  unfold validate_lat
  split
  · rw [setColWith_cols]
  · rfl

/-- validate_lon keeps the record count. -/
theorem validate_lon_rows_length (df : DataFrame) :
    (validate_lon df).rows.length = df.rows.length := by
  unfold validate_lon
  split
  · rw [setColWith_rows_length]
  · rfl

/-- validate_lat keeps the record count. -/
theorem validate_lat_rows_length (df : DataFrame) :
    (validate_lat df).rows.length = df.rows.length := by
  unfold validate_lat
  split
  · rw [setColWith_rows_length]
  · rfl

/-- The longitude column after validate_lon is the coerced original
(absent columns read as the empty cell list on both sides). -/
theorem validate_lon_getCol_self (df : DataFrame) :
    (validate_lon df).getCol "longitude" = (df.getCol "longitude").map (coerceRange 180) := by
  unfold validate_lon
  by_cases h : df.cols.contains "longitude" = true
  · rw [if_pos h]
    exact getCol_setColWith_self df "longitude" (coerceRange 180) h
  · rw [if_neg h]
    have h2 : df.getCol "longitude" = [] := by
      unfold DataFrame.getCol
      rw [if_neg h]
    rw [h2]
    rfl

/-- validate_lon leaves every other column unchanged. -/
theorem validate_lon_getCol_ne (df : DataFrame) (c : String) (h : c ≠ "longitude") :
    (validate_lon df).getCol c = df.getCol c := by
  unfold validate_lon
  split
  · exact getCol_setColWith_ne df "longitude" c (coerceRange 180) h
  · rfl

/-- The latitude column after validate_lat is the coerced original. -/
theorem validate_lat_getCol_self (df : DataFrame) :
    (validate_lat df).getCol "latitude" = (df.getCol "latitude").map (coerceRange 90) := by
  unfold validate_lat
  by_cases h : df.cols.contains "latitude" = true
  · rw [if_pos h]
    exact getCol_setColWith_self df "latitude" (coerceRange 90) h
  · rw [if_neg h]
    have h2 : df.getCol "latitude" = [] := by
      unfold DataFrame.getCol
      rw [if_neg h]
    rw [h2]
    rfl

/-- validate_lat leaves every other column unchanged. -/
theorem validate_lat_getCol_ne (df : DataFrame) (c : String) (h : c ≠ "latitude") :
    (validate_lat df).getCol c = df.getCol c := by
  unfold validate_lat
  split
  · exact getCol_setColWith_ne df "latitude" c (coerceRange 90) h
  · rfl

/-- C4: Validate-coordinates keeps the record count and the columns, every
remaining non-null coordinate is a number inside the geographic range, and
every cell that was non-numeric or out of range beforehand is null
afterwards, position by position. -/
theorem C4_validate_coordinates (df : DataFrame) :
    (validate_coordinates df).rows.length = df.rows.length ∧
    (validate_coordinates df).cols = df.cols ∧
    (∀ v ∈ (validate_coordinates df).getCol "latitude",
      v = none ∨ ∃ q, v = some (Value.num q) ∧ -90 ≤ q ∧ q ≤ 90) ∧
    (∀ v ∈ (validate_coordinates df).getCol "longitude",
      v = none ∨ ∃ q, v = some (Value.num q) ∧ -180 ≤ q ∧ q ≤ 180) ∧
    (∀ (i : Nat) (v : Option Value), (df.getCol "latitude")[i]? = some v →
      (∀ q, toNumericCell v = some q → q < -90 ∨ 90 < q) →
      ((validate_coordinates df).getCol "latitude")[i]? = some none) ∧
    (∀ (i : Nat) (v : Option Value), (df.getCol "longitude")[i]? = some v →
      (∀ q, toNumericCell v = some q → q < -180 ∨ 180 < q) →
      ((validate_coordinates df).getCol "longitude")[i]? = some none) := by
  have hlat : (validate_coordinates df).getCol "latitude" =
      (df.getCol "latitude").map (coerceRange 90) := by
    unfold validate_coordinates
    rw [validate_lat_getCol_self, validate_lon_getCol_ne df "latitude" (by decide)]
  have hlon : (validate_coordinates df).getCol "longitude" =
      (df.getCol "longitude").map (coerceRange 180) := by
    unfold validate_coordinates
    rw [validate_lat_getCol_ne _ "longitude" (by decide), validate_lon_getCol_self]
  refine ⟨?_, ?_, ?_, ?_, ?_, ?_⟩
  · unfold validate_coordinates
    rw [validate_lat_rows_length, validate_lon_rows_length]
  · unfold validate_coordinates
    rw [validate_lat_cols, validate_lon_cols]
  · intro v hv
    rw [hlat] at hv
    obtain ⟨u, _, hu⟩ := List.mem_map.mp hv
    rw [← hu]
    exact coerceRange_ok 90 u
  · intro v hv
    rw [hlon] at hv
    obtain ⟨u, _, hu⟩ := List.mem_map.mp hv
    rw [← hu]
    exact coerceRange_ok 180 u
  · intro i v hv hbad
    rw [hlat, List.getElem?_map, hv]
    simp only [Option.map_some']
    rw [coerceRange_bad 90 v hbad]
  · intro i v hv hbad
    rw [hlon, List.getElem?_map, hv]
    simp only [Option.map_some']
    rw [coerceRange_bad 180 v hbad]

/-- A concrete record with an out-of-range latitude and a non-numeric
longitude (the spec scenario latitude "999"). -/
def coordExampleDf : DataFrame :=
  { cols := ["latitude", "longitude"],
    rows := [[("latitude", some (Value.str "999")), ("longitude", some (Value.str "abc"))]] }

/-- Witness for C4: latitude "999" is nulled and the record survives. -/
theorem C4_validate_coordinates_witness :
    ((validate_coordinates coordExampleDf).getCol "latitude")[0]? = some none ∧
    (validate_coordinates coordExampleDf).rows.length = coordExampleDf.rows.length := by
  refine ⟨?_, (C4_validate_coordinates coordExampleDf).1⟩
  refine (C4_validate_coordinates coordExampleDf).2.2.2.2.1 0 (some (Value.str "999")) (by decide) ?_
  intro q hq
  right
  have h9 : toNumericCell (some (Value.str "999")) = some ((1 : ℚ) * ((999 : ℕ) : ℚ)) := by rfl
  rw [h9] at hq
  rw [← Option.some.inj hq]
  norm_num

/-! String cleaning (claim C5). -/

/-- Folding per-column rewrites keeps the column list. -/
theorem foldl_setColWith_cols (f : Option Value → Option Value) :
    ∀ (cs : List String) (d : DataFrame),
      (cs.foldl (fun d c => setColWith d c f) d).cols = d.cols := by
  intro cs
  induction cs with
  | nil => intro d; rfl
  | cons c cs ih =>
    intro d
    rw [List.foldl_cons, ih, setColWith_cols]

/-- Folding per-column rewrites keeps the record count. -/
theorem foldl_setColWith_rows_length (f : Option Value → Option Value) :
    ∀ (cs : List String) (d : DataFrame),
      (cs.foldl (fun d c => setColWith d c f) d).rows.length = d.rows.length := by
  intro cs
  induction cs with
  | nil => intro d; rfl
  | cons c cs ih =>
    intro d
    rw [List.foldl_cons, ih, setColWith_rows_length]

/-- Folding per-column rewrites maps exactly the listed columns. -/
theorem foldl_setColWith_getCol (f : Option Value → Option Value) :
    ∀ (cs : List String) (d : DataFrame), cs.Nodup →
      (∀ c ∈ cs, d.cols.contains c = true) →
      ∀ x, (cs.foldl (fun d c => setColWith d c f) d).getCol x =
        if x ∈ cs then (d.getCol x).map f else d.getCol x := by
  intro cs
  induction cs with
  | nil =>
    intro d _ _ x
    simp
  | cons c cs ih =>
    intro d hnd hsub x
    have hnd' := List.nodup_cons.mp hnd
    have hsub' : ∀ c' ∈ cs, (setColWith d c f).cols.contains c' = true := by
      intro c' hc'
      rw [setColWith_cols]
      exact hsub c' (List.mem_cons_of_mem _ hc')
    rw [List.foldl_cons, ih (setColWith d c f) hnd'.2 hsub' x]
    by_cases hx : x ∈ cs
    · rw [if_pos hx, if_pos (List.mem_cons_of_mem _ hx)]
      have hxc : x ≠ c := fun he => hnd'.1 (he ▸ hx)
      rw [getCol_setColWith_ne d c x f hxc]
    · rw [if_neg hx]
      by_cases hxc : x = c
      · subst hxc
        rw [if_pos (List.mem_cons_self _ _)]
        exact getCol_setColWith_self d x f (hsub x (List.mem_cons_self _ _))
      · rw [if_neg (by simp [hxc, hx])]
        exact getCol_setColWith_ne d c x f hxc

/-- A string-typed column is present in the column list. -/
theorem isStrCol_contains (df : DataFrame) (c : String) (h : isStrCol df c = true) :
    df.cols.contains c = true := by
  by_contra hcon
  have hc : df.cols.contains c = false := by
    cases h2 : df.cols.contains c with
    | true => exact absurd h2 hcon
    | false => rfl
  have hnil : df.getCol c = [] := by
    unfold DataFrame.getCol
    rw [if_neg hcon]
  unfold isStrCol at h
  rw [hnil] at h
  simp at h

/-- C5: Clean-strings keeps the columns and the record count, replaces
every string-typed column by its trimmed cells, and leaves every column
that is not string-typed unchanged (and, being a total function of the
Dataset, it raises nothing). -/
theorem C5_clean_strings (df : DataFrame) (hnd : df.cols.Nodup) :
    (clean_strings df).cols = df.cols ∧
    (clean_strings df).rows.length = df.rows.length ∧
    (∀ c, isStrCol df c = true →
      (clean_strings df).getCol c = (df.getCol c).map stripCell) ∧
    (∀ c, isStrCol df c = false → (clean_strings df).getCol c = df.getCol c) := by
  have hndf : (df.cols.filter (fun c => isStrCol df c)).Nodup := List.Nodup.filter _ hnd
  have hsub : ∀ c ∈ df.cols.filter (fun c => isStrCol df c), df.cols.contains c = true := by
    intro c hc
    exact isStrCol_contains df c (List.mem_filter.mp hc).2
  refine ⟨foldl_setColWith_cols _ _ df, foldl_setColWith_rows_length _ _ df, ?_, ?_⟩
  · intro c hc
    unfold clean_strings
    rw [foldl_setColWith_getCol stripCell _ df hndf hsub c,
      if_pos (List.mem_filter.mpr ⟨List.elem_iff.mp (isStrCol_contains df c hc), hc⟩)]
  · intro c hc
    unfold clean_strings
    rw [foldl_setColWith_getCol stripCell _ df hndf hsub c, if_neg ?_]
    intro hmem
    rw [(List.mem_filter.mp hmem).2] at hc
    exact Bool.true_eq_false.mp hc

/-- A concrete Dataset with one text column (holding surrounding blanks)
and one numeric column. -/
def cleanExampleDf : DataFrame :=
  { cols := ["name", "latitude"],
    rows := [[("name", some (Value.str "  Alpha  ")), ("latitude", some (Value.num 1))]] }

/-- Witness for C5: the text column is trimmed, the numeric one untouched. -/
theorem C5_clean_strings_witness :
    (clean_strings cleanExampleDf).getCol "name" = [some (Value.str "Alpha")] ∧
    (clean_strings cleanExampleDf).getCol "latitude" = cleanExampleDf.getCol "latitude" := by
  have h := C5_clean_strings cleanExampleDf (by decide)
  constructor
  · rw [h.2.2.1 "name" (by decide)]
    decide
  · exact h.2.2.2 "latitude" (by decide)

/-! The Silver pipeline on an empty Dataset (claim C6). -/

/-- C6 (amended): on a zero-record Dataset whose schema carries the `id`
column, Deduplicate succeeds and with it the whole left-to-right Silver
composition returns without raising (all later transforms are total). -/
theorem C6_empty_transform (df : DataFrame) (ts : String)
    (h0 : df.rows = []) (hid : df.cols.contains "id" = true) :
    (∃ p, deduplicate df = Except.ok p) ∧ (∃ out, transform ts df = Except.ok out) := by
  have hd : deduplicate df =
      Except.ok ({ df with rows := keepLastBy (fun r => cellR r "id") df.rows },
        df.rows.length - (keepLastBy (fun r => cellR r "id") df.rows).length) := by
    unfold deduplicate
    rw [if_pos hid]
  refine ⟨⟨_, hd⟩, ?_⟩
  unfold transform
  rw [hd]
  exact ⟨_, rfl⟩

/-- Witness for C6 at the zero-record Dataset whose schema is the `id`
column alone. -/
theorem C6_empty_transform_witness :
    (∃ p, deduplicate { cols := ["id"], rows := [] } = Except.ok p) ∧
    (∃ out, transform "2026-02-22 00:00:00" { cols := ["id"], rows := [] } = Except.ok out) :=
  C6_empty_transform { cols := ["id"], rows := [] } "2026-02-22 00:00:00" rfl (by decide)

/-- Counterexample to C6 as stated: on the empty Dataset with no columns
(the DataFrame the loader builds from zero records), the very first
transform raises `KeyError` for the missing `id` column, so the Silver
composition raises as well. -/
theorem C6_counterexample_empty_dataset :
    transform "2026-02-22 00:00:00" { cols := [], rows := [] } =
      Except.error "KeyError: [\u0027id\u0027]" := by
  rfl

/-! The data-quality gate (data_quality.py): claims C9 and C10. -/

/-- A data-quality check result: name, verdict and human-readable details
(immutable, one per check invocation). -/
structure CheckResult where
  check_name : String
  passed : Bool
  details : String
deriving Repr, DecidableEq

/-- Pandas `unique()`: distinct elements in first-occurrence order. -/
def dedupFirst {α : Type} [DecidableEq α] (l : List α) : List α :=
  l.foldl (fun acc x => if x ∈ acc then acc else acc ++ [x]) []

/-- Null rate of a column (pandas `.isna().mean()`); the mean over zero
records is NaN, which exceeds no threshold, modelled as rate 0. -/
def nullRate (df : DataFrame) (c : String) : ℚ :=
  if df.rows.length = 0 then 0
  else ((df.rows.filter (fun r => (cellR r c).isNone)).length : ℚ) / (df.rows.length : ℚ)

/-- data_quality.check_nulls: fails when a listed column is missing or its
null rate exceeds the threshold. -/
def check_nulls (df : DataFrame) (columns : List String) (threshold : ℚ) : CheckResult :=
  let issues := columns.flatMap (fun col =>
    if ¬ df.cols.contains col then
      [s!"Coluna \u0027{col}\u0027 não encontrada no DataFrame."]
    else if nullRate df col > threshold then
      [s!"Taxa de nulos em \u0027{col}\u0027 excede o limite."]
    else [])
  let passed := issues.isEmpty
  { check_name := "check_nulls",
    passed := passed,
    details := if passed then "Todas as verificações de nulos passaram."
               else String.intercalate " | " issues }

/-- data_quality.check_unique: fails when the projection onto the listed
columns has duplicate combinations; reports the duplicate count. -/
def check_unique (df : DataFrame) (columns : List String) : CheckResult :=
  let total := df.rows.length
  let unique := (dedupFirst (df.rows.map (fun r => columns.map (fun c => cellR r c)))).length
  let duplicates := total - unique
  let passed := duplicates = 0
  { check_name := "check_unique",
    passed := decide passed,
    details := if passed then "Verificação de unicidade passou."
               else s!"{duplicates} linha(s) duplicada(s) encontradas." }

/-- data_quality.check_volume: fails when the row count is below min_rows
or above the optional max_rows. -/
def check_volume (df : DataFrame) (min_rows : Nat) (max_rows : Option Nat) : CheckResult :=
  let n := df.rows.length
  let issues :=
    (if n < min_rows then [s!"Contagem de linhas {n} está abaixo do mínimo de {min_rows}."]
     else []) ++
    (match max_rows with
     | some m => if n > m then [s!"Contagem de linhas {n} excede o máximo de {m}."] else []
     | none => [])
  let passed := issues.isEmpty
  { check_name := "check_volume",
    passed := passed,
    details := if passed then s!"Volume OK: {n} linhas."
               else String.intercalate " | " issues }

/-- data_quality.check_allowed_values: a missing column fails outright;
otherwise the offending values are the non-null values outside the allowed
set — note the source drops nulls from the series again right before the
membership test, so nulls are never offending, whatever null_ok says. -/
def check_allowed_values (df : DataFrame) (column : String) (allowed : List Value)
    (null_ok : Bool) : CheckResult :=
  if df.cols.contains column then
    let cells := df.rows.map (fun r => cellR r column)
    let series := if null_ok then cells else cells.filter (fun v => v.isSome)
    let invalid := (series.filterMap id).filter (fun v => !(allowed.contains v))
    let passed := invalid.isEmpty
    { check_name := "check_allowed_values",
      passed := passed,
      details := if passed then s!"Todos os valores em \u0027{column}\u0027 são válidos."
                 else s!"\u0027{column}\u0027 possui valores inválidos: " ++
                   String.intercalate ", " ((dedupFirst invalid).take 10 |>.map pyStr) }
  else
    { check_name := "check_allowed_values",
      passed := false,
      details := s!"Coluna \u0027{column}\u0027 não encontrada." }

/-- data_quality.check_schema: fails when any expected column is absent. -/
def check_schema (df : DataFrame) (expected_columns : List String) : CheckResult :=
  let missing := expected_columns.filter (fun c => ¬ df.cols.contains c)
  let passed := missing.isEmpty
  { check_name := "check_schema",
    passed := passed,
    details := if passed then "Verificação de schema passou."
               else "Colunas ausentes: " ++ String.intercalate ", " missing }

/-- data_quality.run_suite: overall verdict is the conjunction of the
results; raises (ValueError) exactly when raise_on_failure is set and some
check failed. -/
def run_suite (checks : List CheckResult) (raise_on_failure : Bool) : Except String Bool :=
  let all_passed := checks.all (fun c => c.passed)
  if ¬ all_passed ∧ raise_on_failure then
    Except.error "A suíte de qualidade de dados falhou. Veja o relatório acima."
  else
    Except.ok all_passed

/-- C9: run_suite returns ok true exactly when every check passed, raises
exactly when raise_on_failure is set and some check failed, and never
raises when raise_on_failure is false. -/
theorem C9_run_suite (checks : List CheckResult) (b : Bool) :
    (run_suite checks b = Except.ok true ↔ ∀ c ∈ checks, c.passed = true) ∧
    ((∃ e, run_suite checks b = Except.error e) ↔
      (b = true ∧ ∃ c ∈ checks, c.passed = false)) ∧
    (b = false → run_suite checks b = Except.ok (checks.all (fun c => c.passed))) := by
  unfold run_suite
  by_cases hall : checks.all (fun c => c.passed) = true
  · rw [if_neg (by simp [hall])]
    refine ⟨?_, ?_, fun _ => by rw [hall]⟩
    · rw [hall]
      simp only [true_iff, Except.ok.injEq]
      exact List.all_eq_true.mp hall
    · constructor
      · intro ⟨e, he⟩
        rw [hall] at he
        exact absurd he (by simp)
      · intro ⟨_, c, hc, hcp⟩
        have := List.all_eq_true.mp hall c hc
        rw [this] at hcp
        exact absurd hcp (by simp)
  · have hall' : checks.all (fun c => c.passed) = false := by
      cases h2 : checks.all (fun c => c.passed) with
      | true => exact absurd h2 hall
      | false => rfl
    obtain ⟨c0, hc0, hc0p⟩ : ∃ c ∈ checks, c.passed = false := by
      have := List.all_eq_true.not.mp hall
      push_neg at this
      obtain ⟨c0, hc0, hne⟩ := this
      exact ⟨c0, hc0, by
        cases h2 : c0.passed with
        | true => exact absurd h2 hne
        | false => rfl⟩
    cases b with
    | true =>
      rw [if_pos (by simp [hall'])]
      refine ⟨?_, ?_, by intro h; exact absurd h (by simp)⟩
      · constructor
        · intro h
          exact absurd h (by simp)
        · intro hforall
          have := hforall c0 hc0
          rw [this] at hc0p
          exact absurd hc0p (by simp)
      · constructor
        · intro _
          exact ⟨rfl, c0, hc0, hc0p⟩
        · intro _
          exact ⟨_, rfl⟩
    | false =>
      rw [if_neg (by simp)]
      refine ⟨?_, ?_, fun _ => rfl⟩
      · rw [hall']
        simp only [Except.ok.injEq]
        constructor
        · intro h
          exact absurd h (by simp)
        · intro hforall
          have := hforall c0 hc0
          rw [this] at hc0p
          exact absurd hc0p (by simp)
      · constructor
        · intro ⟨e, he⟩
          rw [hall'] at he
          exact absurd he (by simp)
        · intro ⟨hb, _⟩
          exact absurd hb (by simp)

/-- Witness for C9: a single failed check with raise_on_failure off comes
back as ok false rather than raising. -/
theorem C9_run_suite_witness :
    run_suite [{ check_name := "check_volume", passed := false, details := "d" }] false =
      Except.ok false := by
  have h := (C9_run_suite
    [{ check_name := "check_volume", passed := false, details := "d" }] false).2.2 rfl
  simpa using h

/-- C10: check_allowed_values never counts nulls as offending values, even
with null_ok off: a present column whose values are all null or allowed
always passes. -/
theorem C10_check_allowed_values (df : DataFrame) (column : String) (allowed : List Value)
    (null_ok : Bool) (hcol : df.cols.contains column = true)
    (hvals : ∀ r ∈ df.rows,
      cellR r column = none ∨ ∃ v, cellR r column = some v ∧ v ∈ allowed) :
    (check_allowed_values df column allowed null_ok).passed = true := by
  unfold check_allowed_values
  rw [if_pos hcol]
  simp only []
  have hinv :
      (((if null_ok then df.rows.map (fun r => cellR r column)
         else (df.rows.map (fun r => cellR r column)).filter
           (fun v => v.isSome)).filterMap id).filter
        (fun v => !(allowed.contains v))) = [] := by
    rw [List.filter_eq_nil_iff]
    intro v hv hpred
    obtain ⟨ov, hovmem, hov⟩ := List.mem_filterMap.mp hv
    have hovs : ov = some v := hov
    have hcellmem : ov ∈ df.rows.map (fun r => cellR r column) := by
      by_cases hn : null_ok = true
      · rw [hn] at hovmem
        simpa using hovmem
      · have hn' : null_ok = false := by
          cases h2 : null_ok with
          | true => exact absurd h2 hn
          | false => rfl
        rw [hn'] at hovmem
        simp only [Bool.false_eq_true, if_false] at hovmem
        exact (List.mem_filter.mp hovmem).1
    obtain ⟨r, hr, hcr⟩ := List.mem_map.mp hcellmem
    rcases hvals r hr with hnone | ⟨w, hw, hwa⟩
    · rw [hcr, hovs] at hnone
      exact absurd hnone (by simp)
    · rw [hcr, hovs] at hw
      have hvw : w = v := (Option.some.inj hw).symm
      rw [hvw] at hwa
      rw [Bool.not_eq_true', ← Bool.not_eq_true] at hpred
      exact hpred (List.elem_iff.mpr hwa)
  rw [hinv]
  rfl

/-- A concrete column holding only nulls and allowed values. -/
def allowedExampleDf : DataFrame :=
  { cols := ["brewery_type"],
    rows := [[("brewery_type", some (Value.str "micro"))], [("brewery_type", none)]] }

/-- Witness for C10 with null_ok set to false: the null cell is still not
counted as offending. -/
theorem C10_check_allowed_values_witness :
    (check_allowed_values allowedExampleDf "brewery_type" [Value.str "micro"] false).passed =
      true := by
  refine C10_check_allowed_values allowedExampleDf "brewery_type" [Value.str "micro"] false
    (by decide) ?_
  intro r hr
  rcases List.mem_cons.mp hr with h | h
  · subst h
    right
    exact ⟨Value.str "micro", by decide, by decide⟩
  · rcases List.mem_cons.mp h with h2 | h2
    · subst h2
      left
      decide
    · exact absurd h2 (by simp)

/-! The Gold aggregation engine (gold.py): claims C1, C2 and C7. -/

/-- Insert into a sorted list, keeping earlier elements first on ties
(the insertion step of a stable insertion sort). -/
def insertLe {α : Type} (le : α → α → Bool) (x : α) : List α → List α
  | [] => [x]
  | y :: ys => if le x y then x :: y :: ys else y :: insertLe le x ys

/-- Stable insertion sort. -/
def sortByLe {α : Type} (le : α → α → Bool) (l : List α) : List α :=
  l.foldr (insertLe le) []

/-- Membership through insertion. -/
theorem mem_insertLe {α : Type} (le : α → α → Bool) (x a : α) :
    ∀ l, a ∈ insertLe le x l ↔ a = x ∨ a ∈ l := by
  intro l
  induction l with
  | nil => simp [insertLe]
  | cons y ys ih =>
    unfold insertLe
    by_cases hle : le x y = true
    · rw [if_pos hle]
      simp
    · rw [if_neg hle]
      rw [List.mem_cons, ih, List.mem_cons]
      tauto

/-- Sorting permutes nothing in or out. -/
theorem mem_sortByLe {α : Type} (le : α → α → Bool) (l : List α) (a : α) :
    a ∈ sortByLe le l ↔ a ∈ l := by
  unfold sortByLe
  induction l with
  | nil => simp
  | cons y ys ih =>
    rw [List.foldr_cons, mem_insertLe, ih, List.mem_cons]

/-- Key tuple of a record for a group-by key list. -/
def keyTuple (keys : List String) (r : Row) : List (Option Value) :=
  keys.map (fun c => cellR r c)

/-- Rank separating value kinds (numbers, strings, booleans). -/
def valueRank : Value → Nat
  | Value.num _ => 0
  | Value.str _ => 1
  | Value.bool _ => 2

/-- A total order on cell values, mirroring the sorted orders pandas
produces; no claim in scope depends on row order, only on membership. -/
def valueLeB (a b : Value) : Bool :=
  match a, b with
  | Value.num x, Value.num y => decide (x ≤ y)
  | Value.str x, Value.str y => decide (x ≤ y)
  | Value.bool x, Value.bool y => !x || y
  | _, _ => decide (valueRank a ≤ valueRank b)

/-- Cell order with nulls last, where pandas places NaN keys. -/
def ovLeB : Option Value → Option Value → Bool
  | none, none => true
  | none, some _ => false
  | some _, none => true
  | some a, some b => valueLeB a b

/-- Lexicographic order on key tuples. -/
def keyLeB : List (Option Value) → List (Option Value) → Bool
  | [], _ => true
  | _ :: _, [] => false
  | a :: as, b :: bs => if a = b then keyLeB as bs else ovLeB a b

/-- pandas groupby: the distinct key tuples (sorted, since groupby sorts
its keys) paired with the records carrying them in input order; when
dropna holds (the pandas default), records with a null key component are
dropped first. -/
def groupTuples (rows : List Row) (keys : List String) (dropna : Bool) :
    List (List (Option Value) × List Row) :=
  let rows' := if dropna then rows.filter (fun r => (keyTuple keys r).all Option.isSome)
               else rows
  let ks := sortByLe keyLeB (dedupFirst (rows'.map (keyTuple keys)))
  ks.map (fun k => (k, rows'.filter (fun r => decide (keyTuple keys r = k))))

/-- Record order for DataFrame.sort_values over the listed columns and
ascending flags; ties keep input order (stable sort). -/
def rowLeB (specs : List (String × Bool)) (r1 r2 : Row) : Bool :=
  match specs with
  | [] => true
  | (c, asc) :: rest =>
    let a := cellR r1 c
    let b := cellR r2 c
    if a = b then rowLeB rest r1 r2
    else if asc then ovLeB a b else ovLeB b a

/-- DataFrame.sort_values on a record list. -/
def sortRows (rows : List Row) (specs : List (String × Bool)) : List Row :=
  sortByLe (rowLeB specs) rows

/-- KeyError guard: pandas raises when a referenced column is absent. -/
def requireCols (df : DataFrame) (cs : List String) : Except String Unit :=
  if cs.all (fun c => df.cols.contains c) then Except.ok ()
  else Except.error
    ("KeyError: " ++ String.intercalate ", " (cs.filter (fun c => ¬ df.cols.contains c)))

/-- Count of non-null ids in a record group (pandas `("id", "count")`). -/
def countIds (rs : List Row) : Nat :=
  (rs.filter (fun r => (cellR r "id").isSome)).length

/-- Shared shape of aggregations 1-4: count of non-null ids per group of
the key columns (dropna=False), reset_index, then sort_values. -/
def countAggRes (df : DataFrame) (keys : List String) (specs : List (String × Bool)) :
    DataFrame :=
  let groups := groupTuples df.rows keys false
  let rows := groups.map (fun g =>
    (keys.zip g.1) ++ [("brewery_count", some (Value.num ((countIds g.2 : ℕ) : ℚ)))])
  { cols := keys ++ ["brewery_count"], rows := sortRows rows specs }

/-- Aggregation 1 (gold.agg_breweries_by_type_and_state). On success the
returned pair is (the input object as the call leaves it, the result
table); this aggregation leaves its input untouched. -/
def agg_breweries_by_type_and_state (df : DataFrame) :
    Except String (DataFrame × DataFrame) := do
  let _ ← requireCols df ["brewery_type", "state_province", "id"]
  Except.ok (df, countAggRes df ["brewery_type", "state_province"]
    [("state_province", true), ("brewery_count", false)])

/-- Aggregation 2 (gold.agg_breweries_by_country_and_type). -/
def agg_breweries_by_country_and_type (df : DataFrame) :
    Except String (DataFrame × DataFrame) := do
  let _ ← requireCols df ["country", "brewery_type", "id"]
  Except.ok (df, countAggRes df ["country", "brewery_type"]
    [("country", true), ("brewery_count", false)])

/-- Aggregation 3 (gold.agg_top_cities): grouped counts sorted descending,
then cut to the first top_n records by `.head`. -/
def agg_top_cities (df : DataFrame) (top_n : Nat) :
    Except String (DataFrame × DataFrame) := do
  let _ ← requireCols df ["city", "state_province", "country", "id"]
  let base := countAggRes df ["city", "state_province", "country"] [("brewery_count", false)]
  Except.ok (df, { base with rows := base.rows.take top_n })

/-- Aggregation 4 (gold.agg_geo_coverage). -/
def agg_geo_coverage (df : DataFrame) : Except String (DataFrame × DataFrame) := do
  let _ ← requireCols df ["country", "state_province", "city", "id"]
  Except.ok (df, countAggRes df ["country", "state_province", "city"]
    [("country", true), ("state_province", true), ("brewery_count", false)])

/-- Boolean reading of a helper cell. -/
def boolCell (v : Option Value) : Bool :=
  match v with
  | some (Value.bool b) => b
  | _ => false

/-- Round to two decimals (pandas `.round(2)`; tie behaviour is immaterial
to every claim in scope). -/
def round2 (q : ℚ) : ℚ := ((Rat.floor (q * 100 + 1 / 2) : ℤ) : ℚ) / 100

/-- The three helper columns agg_digital_maturity assigns ON ITS INPUT
frame (`df["has_website"] = ...` and so on mutate the caller's object). -/
def dmAug (df : DataFrame) : DataFrame :=
  let d1 := assignCol df "has_website"
    (fun r => some (Value.bool (cellR r "website_url").isSome))
  let d2 := assignCol d1 "has_phone"
    (fun r => some (Value.bool (cellR r "phone").isSome))
  assignCol d2 "digitally_ready"
    (fun r => some (Value.bool
      (boolCell (cellR r "has_website") && boolCell (cellR r "has_phone"))))

/-- Result table of aggregation 5, computed from the augmented frame:
per state (null states dropped by the groupby default), the id count, the
digitally-ready count, and the rounded percentage score (the 0/0 score of
an all-null-id state is NaN in pandas, modelled as a null cell). -/
def digitalMaturityRes (d : DataFrame) : DataFrame :=
  let groups := groupTuples d.rows ["state_province"] true
  let rows := groups.map (fun g =>
    let total := countIds g.2
    let ready := (g.2.filter (fun r => boolCell (cellR r "digitally_ready"))).length
    let score : Option Value :=
      if total = 0 then none
      else some (Value.num (round2 ((ready : ℚ) / (total : ℚ) * 100)))
    [("state_province", g.1.headD none),
     ("total_breweries", some (Value.num (total : ℚ))),
     ("digitally_ready_count", some (Value.num (ready : ℚ))),
     ("maturity_score", score)])
  { cols := ["state_province", "total_breweries", "digitally_ready_count", "maturity_score"],
    rows := sortRows rows [("maturity_score", false)] }

/-- Aggregation 5 (gold.agg_digital_maturity): assigns the helper columns
on the input, then groups by state. The source reads website_url and phone
before the assignments and state_province and id after them; none of those
four names is a helper column, so the presence checks are equivalently
taken up front on the input frame. -/
def agg_digital_maturity (df : DataFrame) : Except String (DataFrame × DataFrame) := do
  let _ ← requireCols df ["website_url", "phone", "state_province", "id"]
  let d := dmAug df
  Except.ok (d, digitalMaturityRes d)

/-- Result table of aggregation 6: distinct non-null brewery_type count
per state (pandas nunique ignores NaN; null states dropped by default). -/
def regionalDiversityRes (df : DataFrame) : DataFrame :=
  let groups := groupTuples df.rows ["state_province"] true
  let rows := groups.map (fun g =>
    [("state_province", g.1.headD none),
     ("unique_brewery_types", some (Value.num
       ((dedupFirst (g.2.filterMap (fun r => cellR r "brewery_type"))).length : ℚ)))])
  { cols := ["state_province", "unique_brewery_types"],
    rows := sortRows rows [("unique_brewery_types", false)] }

/-- Aggregation 6 (gold.agg_regional_diversity). -/
def agg_regional_diversity (df : DataFrame) : Except String (DataFrame × DataFrame) := do
  let _ ← requireCols df ["state_province", "brewery_type"]
  Except.ok (df, regionalDiversityRes df)

/-- Result table of aggregation 7: per state (null states dropped), total
record count and micro count. The source's outer-join concat of the micro
and total groupbys equals a per-state filter, because the micro groups are
a subset of the total groups and the missing states fillna to zero. -/
def marketSpecializationRes (df : DataFrame) : DataFrame :=
  let groups := groupTuples df.rows ["state_province"] true
  let rows := groups.map (fun g =>
    [("state_province", g.1.headD none),
     ("total_brewery_count", some (Value.num (g.2.length : ℚ))),
     ("micro_brewery_count", some (Value.num ((g.2.filter
       (fun r => decide (cellR r "brewery_type" = some (Value.str "micro")))).length : ℚ)))])
  { cols := ["state_province", "total_brewery_count", "micro_brewery_count"],
    rows := sortRows rows [("total_brewery_count", false)] }

/-- Aggregation 7 (gold.agg_market_specialization). -/
def agg_market_specialization (df : DataFrame) : Except String (DataFrame × DataFrame) := do
  let _ ← requireCols df ["brewery_type", "state_province"]
  Except.ok (df, marketSpecializationRes df)

/-- Completeness fraction of the three critical columns for one record. -/
def completenessOf (r : Row) : ℚ :=
  ((["address_1", "phone", "website_url"].filter
    (fun c => (cellR r c).isSome)).length : ℚ) / 3

/-- The completeness helper column agg_data_trust_score assigns ON ITS
INPUT frame. -/
def dtsAug (df : DataFrame) : DataFrame :=
  assignCol df "completeness" (fun r => some (Value.num (completenessOf r)))

/-- Numeric reading of a helper cell. -/
def numCell (v : Option Value) : ℚ :=
  match v with
  | some (Value.num q) => q
  | _ => 0

/-- Result table of aggregation 8, computed from the augmented frame: the
mean completeness per state (null states dropped), times 100, rounded. -/
def dataTrustRes (d : DataFrame) : DataFrame :=
  let groups := groupTuples d.rows ["state_province"] true
  let rows := groups.map (fun g =>
    let qs := g.2.map (fun r => numCell (cellR r "completeness"))
    let mean := qs.foldl (fun a b => a + b) 0 / (qs.length : ℚ)
    [("state_province", g.1.headD none),
     ("trust_score", some (Value.num (round2 (mean * 100))))])
  { cols := ["state_province", "trust_score"],
    rows := sortRows rows [("trust_score", false)] }

/-- Aggregation 8 (gold.agg_data_trust_score): assigns the completeness
column on the input, then groups by state. As for aggregation 5, the
presence checks concern names the helper assignment cannot touch, so they
are equivalently taken up front on the input frame. -/
def agg_data_trust_score (df : DataFrame) : Except String (DataFrame × DataFrame) := do
  let _ ← requireCols df ["address_1", "phone", "website_url", "state_province"]
  let d := dtsAug df
  Except.ok (d, dataTrustRes d)

/-- Step 2 of gold.process_gold: the eight aggregations in source order,
each receiving the frame object as the previous calls left it. -/
def run_gold_aggregations (df : DataFrame) : Except String (List (String × DataFrame)) := do
  let (df1, r1) ← agg_breweries_by_type_and_state df
  let (df2, r2) ← agg_breweries_by_country_and_type df1
  let (df3, r3) ← agg_top_cities df2 20
  let (df4, r4) ← agg_geo_coverage df3
  let (df5, r5) ← agg_digital_maturity df4
  let (df6, r6) ← agg_regional_diversity df5
  let (df7, r7) ← agg_market_specialization df6
  let (_, r8) ← agg_data_trust_score df7
  Except.ok [("breweries_by_type_and_state", r1), ("breweries_by_country_and_type", r2),
    ("top_cities_by_brewery_count", r3), ("geo_coverage_by_state", r4),
    ("digital_maturity", r5), ("regional_diversity", r6),
    ("market_specialization", r7), ("data_trust_score", r8)]

/-- gold.run_gold_dq: per table a volume check (min 1 row) and, when the
table carries brewery_count, a zero-tolerance null check, all run as one
suite with raise_on_failure set. -/
def run_gold_dq (aggs : List (String × DataFrame)) : Except String Bool :=
  run_suite (aggs.flatMap (fun p =>
    [check_volume p.2 1 none] ++
    (if p.2.cols.contains "brewery_count" then [check_nulls p.2 ["brewery_count"] 0]
     else []))) true

/-- The compute-and-gate portion of gold.process_gold: aggregations, then
the quality suite; reaching the ok value is what allows the Gold save
loop to run. -/
def process_gold (df : DataFrame) : Except String (List (String × DataFrame)) := do
  let aggs ← run_gold_aggregations df
  let _ ← run_gold_dq aggs
  Except.ok aggs

/-! Lemmas about the Gold helpers. -/

/-- An Except value with isOk holds an ok payload. -/
theorem exists_ok_of_isOk {ε α : Type} (e : Except ε α) (h : e.isOk = true) :
    ∃ a, e = Except.ok a := by
  cases e with
  | error _ => exact absurd h (by simp [Except.isOk, Except.toBool])
  | ok a => exact ⟨a, rfl⟩

/-- assignCol rewrites the record list pointwise. -/
theorem assignCol_rows (df : DataFrame) (c : String) (f : Row → Option Value) :
    (assignCol df c f).rows = df.rows.map (fun r => setCellA r c (f r)) := rfl

/-- assignCol does not change whether another column is present. -/
theorem assignCol_contains_ne (df : DataFrame) (c : String) (f : Row → Option Value)
    (c' : String) (h : c' ≠ c) :
    (assignCol df c f).cols.contains c' = df.cols.contains c' := by
  unfold assignCol
  simp only []
  by_cases hc : df.cols.contains c = true
  · rw [if_pos hc]
  · rw [if_neg hc]
    by_cases h2 : c' ∈ df.cols
    · have hl : (df.cols ++ [c]).contains c' = true :=
        List.elem_iff.mpr (List.mem_append.mpr (Or.inl h2))
      have hr : df.cols.contains c' = true := List.elem_iff.mpr h2
      rw [hl, hr]
    · have hr : df.cols.contains c' = false := by
        cases hh : df.cols.contains c' with
        | true => exact absurd (List.elem_iff.mp hh) h2
        | false => rfl
      have hl : (df.cols ++ [c]).contains c' = false := by
        cases hh : (df.cols ++ [c]).contains c' with
        | true =>
          rcases List.mem_append.mp (List.elem_iff.mp hh) with hmem | hmem
          · exact absurd hmem h2
          · rcases List.mem_cons.mp hmem with he | he
            · exact absurd he h
            · exact absurd he (by simp)
        | false => rfl
      rw [hl, hr]

/-- The record rewrite agg_digital_maturity performs on each input record. -/
def dmRowFun (r : Row) : Row :=
  let r1 := setCellA r "has_website" (some (Value.bool (cellR r "website_url").isSome))
  let r2 := setCellA r1 "has_phone" (some (Value.bool (cellR r1 "phone").isSome))
  setCellA r2 "digitally_ready"
    (some (Value.bool (boolCell (cellR r2 "has_website") && boolCell (cellR r2 "has_phone"))))

/-- dmAug rewrites the record list by dmRowFun. -/
theorem dmAug_rows (df : DataFrame) : (dmAug df).rows = df.rows.map dmRowFun := by
  unfold dmAug dmRowFun assignCol
  simp only [List.map_map]
  rfl

/-- dmRowFun leaves every field other than the three helpers unchanged. -/
theorem dmRowFun_cellR_ne (r : Row) (c : String)
    (h1 : c ≠ "has_website") (h2 : c ≠ "has_phone") (h3 : c ≠ "digitally_ready") :
    cellR (dmRowFun r) c = cellR r c := by
  simp only [dmRowFun]
  rw [cellR_setCellA_ne _ _ _ _ h3, cellR_setCellA_ne _ _ _ _ h2,
    cellR_setCellA_ne _ _ _ _ h1]

/-- dmAug does not change whether a non-helper column is present. -/
theorem dmAug_contains_ne (df : DataFrame) (c : String)
    (h1 : c ≠ "has_website") (h2 : c ≠ "has_phone") (h3 : c ≠ "digitally_ready") :
    (dmAug df).cols.contains c = df.cols.contains c := by
  simp only [dmAug]
  rw [assignCol_contains_ne _ _ _ _ h3, assignCol_contains_ne _ _ _ _ h2,
    assignCol_contains_ne _ _ _ _ h1]

/-- dmAug keeps the record count. -/
theorem dmAug_rows_length (df : DataFrame) : (dmAug df).rows.length = df.rows.length := by
  rw [dmAug_rows, List.length_map]

/-- dmAug leaves every non-helper column unchanged. -/
theorem dmAug_getCol_ne (df : DataFrame) (c : String)
    (h1 : c ≠ "has_website") (h2 : c ≠ "has_phone") (h3 : c ≠ "digitally_ready") :
    (dmAug df).getCol c = df.getCol c := by
  unfold DataFrame.getCol
  rw [dmAug_contains_ne df c h1 h2 h3]
  by_cases hc : df.cols.contains c = true
  · rw [if_pos hc, if_pos hc, dmAug_rows, List.map_map]
    apply List.map_congr_left
    intro r _
    simp only [Function.comp]
    exact dmRowFun_cellR_ne r c h1 h2 h3
  · rw [if_neg hc, if_neg hc]

/-- The record rewrite agg_data_trust_score performs on each input record. -/
def dtsRowFun (r : Row) : Row :=
  setCellA r "completeness" (some (Value.num (completenessOf r)))

/-- dtsAug rewrites the record list by dtsRowFun. -/
theorem dtsAug_rows (df : DataFrame) : (dtsAug df).rows = df.rows.map dtsRowFun := rfl

/-- dtsRowFun leaves every field other than completeness unchanged. -/
theorem dtsRowFun_cellR_ne (r : Row) (c : String) (h : c ≠ "completeness") :
    cellR (dtsRowFun r) c = cellR r c := by
  unfold dtsRowFun
  exact cellR_setCellA_ne _ _ _ _ h

/-- dtsAug does not change whether a non-helper column is present. -/
theorem dtsAug_contains_ne (df : DataFrame) (c : String) (h : c ≠ "completeness") :
    (dtsAug df).cols.contains c = df.cols.contains c := by
  unfold dtsAug
  exact assignCol_contains_ne _ _ _ _ h

/-- dtsAug keeps the record count. -/
theorem dtsAug_rows_length (df : DataFrame) : (dtsAug df).rows.length = df.rows.length := by
  rw [dtsAug_rows, List.length_map]

/-- dtsAug leaves every non-helper column unchanged. -/
theorem dtsAug_getCol_ne (df : DataFrame) (c : String) (h : c ≠ "completeness") :
    (dtsAug df).getCol c = df.getCol c := by
  unfold DataFrame.getCol
  rw [dtsAug_contains_ne df c h]
  by_cases hc : df.cols.contains c = true
  · rw [if_pos hc, if_pos hc, dtsAug_rows, List.map_map]
    apply List.map_congr_left
    intro r _
    simp only [Function.comp]
    exact dtsRowFun_cellR_ne r c h
  · rw [if_neg hc, if_neg hc]

/-! Success unfoldings of the eight aggregations. -/

/-- Aggregation 1 on a frame carrying its columns. -/
theorem agg1_ok (df : DataFrame)
    (h : (["brewery_type", "state_province", "id"].all (fun c => df.cols.contains c)) = true) :
    agg_breweries_by_type_and_state df = Except.ok (df,
      countAggRes df ["brewery_type", "state_province"]
        [("state_province", true), ("brewery_count", false)]) := by
  simp at h
  simp [agg_breweries_by_type_and_state, requireCols, h]
  rfl

/-- Aggregation 2 on a frame carrying its columns. -/
theorem agg2_ok (df : DataFrame)
    (h : (["country", "brewery_type", "id"].all (fun c => df.cols.contains c)) = true) :
    agg_breweries_by_country_and_type df = Except.ok (df,
      countAggRes df ["country", "brewery_type"]
        [("country", true), ("brewery_count", false)]) := by
  simp at h
  simp [agg_breweries_by_country_and_type, requireCols, h]
  rfl

/-- Aggregation 3 on a frame carrying its columns. -/
theorem agg3_ok (df : DataFrame) (top_n : Nat)
    (h : (["city", "state_province", "country", "id"].all (fun c => df.cols.contains c)) = true) :
    agg_top_cities df top_n = Except.ok (df,
      { countAggRes df ["city", "state_province", "country"] [("brewery_count", false)] with
        rows := (countAggRes df ["city", "state_province", "country"]
          [("brewery_count", false)]).rows.take top_n }) := by
  simp at h
  simp [agg_top_cities, requireCols, h]
  rfl

/-- Aggregation 4 on a frame carrying its columns. -/
theorem agg4_ok (df : DataFrame)
    (h : (["country", "state_province", "city", "id"].all (fun c => df.cols.contains c)) = true) :
    agg_geo_coverage df = Except.ok (df,
      countAggRes df ["country", "state_province", "city"]
        [("country", true), ("state_province", true), ("brewery_count", false)]) := by
  simp at h
  simp [agg_geo_coverage, requireCols, h]
  rfl

/-- Aggregation 5 on a frame carrying its columns: the input comes back
augmented with the three helper columns. -/
theorem agg5_ok (df : DataFrame)
    (h : (["website_url", "phone", "state_province", "id"].all
      (fun c => df.cols.contains c)) = true) :
    agg_digital_maturity df = Except.ok (dmAug df, digitalMaturityRes (dmAug df)) := by
  simp at h
  simp [agg_digital_maturity, requireCols, h]
  rfl

/-- Aggregation 6 on a frame carrying its columns. -/
theorem agg6_ok (df : DataFrame)
    (h : (["state_province", "brewery_type"].all (fun c => df.cols.contains c)) = true) :
    agg_regional_diversity df = Except.ok (df, regionalDiversityRes df) := by
  simp at h
  simp [agg_regional_diversity, requireCols, h]
  rfl

/-- Aggregation 7 on a frame carrying its columns. -/
theorem agg7_ok (df : DataFrame)
    (h : (["brewery_type", "state_province"].all (fun c => df.cols.contains c)) = true) :
    agg_market_specialization df = Except.ok (df, marketSpecializationRes df) := by
  simp at h
  simp [agg_market_specialization, requireCols, h]
  rfl

/-- Aggregation 8 on a frame carrying its columns: the input comes back
augmented with the completeness column. -/
theorem agg8_ok (df : DataFrame)
    (h : (["address_1", "phone", "website_url", "state_province"].all
      (fun c => df.cols.contains c)) = true) :
    agg_data_trust_score df = Except.ok (dtsAug df, dataTrustRes (dtsAug df)) := by
  simp at h
  simp [agg_data_trust_score, requireCols, h]
  rfl

/-! Group membership lemmas. -/

/-- Membership in dedupFirst is plain membership. -/
theorem mem_dedupFirst {α : Type} [DecidableEq α] (l : List α) (x : α) :
    x ∈ dedupFirst l ↔ x ∈ l := by
  have haux : ∀ (l acc : List α),
      x ∈ l.foldl (fun acc x => if x ∈ acc then acc else acc ++ [x]) acc ↔
        x ∈ acc ∨ x ∈ l := by
    intro l
    induction l with
    | nil =>
      intro acc
      simp
    | cons y t ih =>
      intro acc
      rw [List.foldl_cons]
      by_cases hy : y ∈ acc
      · rw [if_pos hy, ih]
        constructor
        · rintro (h2 | h2)
          · exact Or.inl h2
          · exact Or.inr (List.mem_cons_of_mem _ h2)
        · rintro (h2 | h2)
          · exact Or.inl h2
          · rcases List.mem_cons.mp h2 with he | he
            · exact Or.inl (he ▸ hy)
            · exact Or.inr he
      · rw [if_neg hy, ih]
        constructor
        · rintro (h2 | h2)
          · rcases List.mem_append.mp h2 with ha | ha
            · exact Or.inl ha
            · exact Or.inr (List.mem_cons.mpr (Or.inl (List.mem_singleton.mp ha)))
          · exact Or.inr (List.mem_cons_of_mem _ h2)
        · rintro (h2 | h2)
          · exact Or.inl (List.mem_append.mpr (Or.inl h2))
          · rcases List.mem_cons.mp h2 with he | he
            · exact Or.inl (List.mem_append.mpr (Or.inr (by simp [he])))
            · exact Or.inr he
  unfold dedupFirst
  rw [haux l []]
  simp

/-- On the empty record list, every groupby yields no groups. -/
theorem groupTuples_nil (keys : List String) (dropna : Bool) :
    groupTuples [] keys dropna = [] := by
  unfold groupTuples dedupFirst
  cases dropna <;> simp [sortByLe]

/-- The group keys are the sorted dedup of the (filtered) key tuples. -/
theorem groupTuples_keys (rows : List Row) (keys : List String) (dropna : Bool) :
    (groupTuples rows keys dropna).map Prod.fst =
      sortByLe keyLeB (dedupFirst ((if dropna then
        rows.filter (fun r => (keyTuple keys r).all Option.isSome)
        else rows).map (keyTuple keys))) := by
  unfold groupTuples
  rw [List.map_map]
  exact Eq.trans (List.map_congr_left (fun k _ => rfl)) (List.map_id _)

/-- Every record's key tuple appears among the dropna=False group keys. -/
theorem keyTuple_mem_groupTuples (rows : List Row) (keys : List String) (r : Row)
    (hr : r ∈ rows) :
    keyTuple keys r ∈ (groupTuples rows keys false).map Prod.fst := by
  rw [groupTuples_keys]
  simp only [if_neg (by simp : ¬False), Bool.false_eq_true, if_false]
  rw [mem_sortByLe, mem_dedupFirst]
  exact List.mem_map.mpr ⟨r, hr, rfl⟩

/-- Every group key of a dropna groupby is fully non-null and realized by
an input record. -/
theorem groupTuples_dropna_keys (rows : List Row) (keys : List String)
    (k : List (Option Value)) (hk : k ∈ (groupTuples rows keys true).map Prod.fst) :
    k.all Option.isSome = true ∧ ∃ r ∈ rows, keyTuple keys r = k := by
  rw [groupTuples_keys] at hk
  simp only [if_pos trivial] at hk
  rw [mem_sortByLe, mem_dedupFirst] at hk
  obtain ⟨r, hrf, heq⟩ := List.mem_map.mp hk
  have hmem := List.mem_filter.mp hrf
  refine ⟨?_, r, hmem.1, heq⟩
  rw [← heq]
  exact hmem.2

/-- Key lookup in a reset_index record built by zipping the key columns
with the key tuple. -/
theorem cellR_zip_keys (keys : List String) (f : String → Option Value) (rest : Row) :
    keys.Nodup → ∀ k ∈ keys, cellR ((keys.zip (keys.map f)) ++ rest) k = f k := by
  induction keys with
  | nil =>
    intro _ k hk
    exact absurd hk (by simp)
  | cons c cs ih =>
    intro hnd k hk
    have hnd' := List.nodup_cons.mp hnd
    rcases List.mem_cons.mp hk with he | he
    · subst he
      rw [List.map_cons, List.zip_cons_cons, List.cons_append]
      exact cellR_cons_of_pos _ _ _ (by simp)
    · have hkc : ((c, f c).1 == k) = false := by
        simp only [beq_eq_false_iff_ne, ne_eq]
        intro hck
        exact hnd'.1 (hck ▸ he)
      rw [List.map_cons, List.zip_cons_cons, List.cons_append, cellR_cons_of_neg _ _ _ hkc]
      exact ih hnd'.2 k he

/-- C2 core for aggregations 1-4: every input record has a representative
group record in the counted result, matching on every key column. -/
theorem countAggRes_represents (df : DataFrame) (keys : List String)
    (specs : List (String × Bool)) (hnd : keys.Nodup) (r : Row) (hr : r ∈ df.rows) :
    ∃ row' ∈ (countAggRes df keys specs).rows, ∀ k ∈ keys, cellR row' k = cellR r k := by
  have hkmem : keyTuple keys r ∈ (groupTuples df.rows keys false).map Prod.fst :=
    keyTuple_mem_groupTuples df.rows keys r hr
  obtain ⟨g, hg, hgk⟩ := List.mem_map.mp hkmem
  refine ⟨(keys.zip g.1) ++
    [("brewery_count", some (Value.num ((countIds g.2 : ℕ) : ℚ)))], ?_, ?_⟩
  · unfold countAggRes sortRows
    simp only []
    rw [mem_sortByLe]
    exact List.mem_map.mpr ⟨g, hg, rfl⟩
  · intro k hk
    rw [hgk]
    exact cellR_zip_keys keys (fun c => cellR r c) _ hnd k hk

/-! Inversion of the aggregations: what a successful call must return. -/

/-- Inversion for aggregation 1. -/
theorem agg1_inv (df : DataFrame) (out : DataFrame × DataFrame)
    (h : agg_breweries_by_type_and_state df = Except.ok out) :
    out = (df, countAggRes df ["brewery_type", "state_province"]
      [("state_province", true), ("brewery_count", false)]) := by
  unfold agg_breweries_by_type_and_state requireCols at h
  split at h
  · exact (Except.ok.inj h).symm
  · exact Except.noConfusion h

/-- Inversion for aggregation 2. -/
theorem agg2_inv (df : DataFrame) (out : DataFrame × DataFrame)
    (h : agg_breweries_by_country_and_type df = Except.ok out) :
    out = (df, countAggRes df ["country", "brewery_type"]
      [("country", true), ("brewery_count", false)]) := by
  unfold agg_breweries_by_country_and_type requireCols at h
  split at h
  · exact (Except.ok.inj h).symm
  · exact Except.noConfusion h

/-- Inversion for aggregation 3. -/
theorem agg3_inv (df : DataFrame) (top_n : Nat) (out : DataFrame × DataFrame)
    (h : agg_top_cities df top_n = Except.ok out) :
    out = (df, { countAggRes df ["city", "state_province", "country"]
        [("brewery_count", false)] with
      rows := (countAggRes df ["city", "state_province", "country"]
        [("brewery_count", false)]).rows.take top_n }) := by
  unfold agg_top_cities requireCols at h
  split at h
  · exact (Except.ok.inj h).symm
  · exact Except.noConfusion h

/-- Inversion for aggregation 4. -/
theorem agg4_inv (df : DataFrame) (out : DataFrame × DataFrame)
    (h : agg_geo_coverage df = Except.ok out) :
    out = (df, countAggRes df ["country", "state_province", "city"]
      [("country", true), ("state_province", true), ("brewery_count", false)]) := by
  unfold agg_geo_coverage requireCols at h
  split at h
  · exact (Except.ok.inj h).symm
  · exact Except.noConfusion h

/-- Inversion for aggregation 5. -/
theorem agg5_inv (df : DataFrame) (out : DataFrame × DataFrame)
    (h : agg_digital_maturity df = Except.ok out) :
    out = (dmAug df, digitalMaturityRes (dmAug df)) := by
  unfold agg_digital_maturity requireCols at h
  split at h
  · exact (Except.ok.inj h).symm
  · exact Except.noConfusion h

/-- Inversion for aggregation 6. -/
theorem agg6_inv (df : DataFrame) (out : DataFrame × DataFrame)
    (h : agg_regional_diversity df = Except.ok out) :
    out = (df, regionalDiversityRes df) := by
  unfold agg_regional_diversity requireCols at h
  split at h
  · exact (Except.ok.inj h).symm
  · exact Except.noConfusion h

/-- Inversion for aggregation 7. -/
theorem agg7_inv (df : DataFrame) (out : DataFrame × DataFrame)
    (h : agg_market_specialization df = Except.ok out) :
    out = (df, marketSpecializationRes df) := by
  unfold agg_market_specialization requireCols at h
  split at h
  · exact (Except.ok.inj h).symm
  · exact Except.noConfusion h

/-- Inversion for aggregation 8. -/
theorem agg8_inv (df : DataFrame) (out : DataFrame × DataFrame)
    (h : agg_data_trust_score df = Except.ok out) :
    out = (dtsAug df, dataTrustRes (dtsAug df)) := by
  unfold agg_data_trust_score requireCols at h
  split at h
  · exact (Except.ok.inj h).symm
  · exact Except.noConfusion h

/-! Invariance of grouped results under helper-column assignment. -/

/-- Grouping a pointwise-rewritten record list, when the rewrite preserves
the key cells, groups the same keys with rewritten member lists. -/
theorem groupTuples_map (rows : List Row) (keys : List String) (dropna : Bool)
    (g : Row → Row) (hkey : ∀ r, keyTuple keys (g r) = keyTuple keys r) :
    groupTuples (rows.map g) keys dropna =
      (groupTuples rows keys dropna).map (fun p => (p.1, p.2.map g)) := by
  simp only [groupTuples]
  have hfil : ((rows.map g).filter (fun r => (keyTuple keys r).all Option.isSome)) =
      (rows.filter (fun r => (keyTuple keys r).all Option.isSome)).map g := by
    rw [List.filter_map]
    congr 1
    apply List.filter_congr
    intro r _
    simp only [Function.comp]
    rw [hkey r]
  cases dropna
  · simp only [Bool.false_eq_true, if_false]
    have hks : (rows.map g).map (keyTuple keys) = rows.map (keyTuple keys) := by
      rw [List.map_map]
      exact List.map_congr_left (fun r _ => hkey r)
    rw [hks, List.map_map]
    apply List.map_congr_left
    intro k _
    simp only [Function.comp]
    congr 1
    rw [List.filter_map]
    congr 1
    apply List.filter_congr
    intro r _
    simp only [Function.comp]
    rw [hkey r]
  · simp only [if_true]
    rw [hfil]
    have hks : ((rows.filter (fun r => (keyTuple keys r).all Option.isSome)).map g).map
        (keyTuple keys) =
        (rows.filter (fun r => (keyTuple keys r).all Option.isSome)).map (keyTuple keys) := by
      rw [List.map_map]
      exact List.map_congr_left (fun r _ => hkey r)
    rw [hks, List.map_map]
    apply List.map_congr_left
    intro k _
    simp only [Function.comp]
    congr 1
    rw [List.filter_map]
    congr 1
    apply List.filter_congr
    intro r _
    simp only [Function.comp]
    rw [hkey r]

/-- A result table built only from the record list is insensitive to the
column list. -/
theorem regionalDiversityRes_rows_only (d1 d2 : DataFrame) (h : d1.rows = d2.rows) :
    regionalDiversityRes d1 = regionalDiversityRes d2 := by
  unfold regionalDiversityRes
  rw [h]

/-- Same for the market-specialization table. -/
theorem marketSpecializationRes_rows_only (d1 d2 : DataFrame) (h : d1.rows = d2.rows) :
    marketSpecializationRes d1 = marketSpecializationRes d2 := by
  unfold marketSpecializationRes
  rw [h]

/-- Same for the trust-score table. -/
theorem dataTrustRes_rows_only (d1 d2 : DataFrame) (h : d1.rows = d2.rows) :
    dataTrustRes d1 = dataTrustRes d2 := by
  unfold dataTrustRes
  rw [h]

/-- Regional diversity ignores a record rewrite that preserves the state
and brewery_type cells. -/
theorem regionalDiversityRes_invariant (base : List Row) (cols1 cols2 : List String)
    (g : Row → Row)
    (hsp : ∀ r, cellR (g r) "state_province" = cellR r "state_province")
    (hbt : ∀ r, cellR (g r) "brewery_type" = cellR r "brewery_type") :
    regionalDiversityRes { cols := cols1, rows := base.map g } =
      regionalDiversityRes { cols := cols2, rows := base } := by
  have hkey : ∀ r, keyTuple ["state_province"] (g r) = keyTuple ["state_province"] r := by
    intro r
    simp [keyTuple, hsp r]
  unfold regionalDiversityRes
  simp only []
  rw [groupTuples_map base _ _ g hkey, List.map_map]
  have hbuild : ∀ p : List (Option Value) × List Row,
      ((fun g0 => [("state_province", (g0 : List (Option Value) × List Row).1.headD none),
        ("unique_brewery_types", some (Value.num
          ((dedupFirst (g0.2.filterMap (fun r => cellR r "brewery_type"))).length : ℚ)))]) ∘
        (fun p => (p.1, p.2.map g))) p =
      [("state_province", p.1.headD none),
        ("unique_brewery_types", some (Value.num
          ((dedupFirst (p.2.filterMap (fun r => cellR r "brewery_type"))).length : ℚ)))] := by
    intro p
    simp only [Function.comp]
    have hfm : (p.2.map g).filterMap (fun r => cellR r "brewery_type") =
        p.2.filterMap (fun r => cellR r "brewery_type") := by
      rw [List.filterMap_map]
      have hfg : ((fun r => cellR r "brewery_type") ∘ g) =
          (fun r => cellR r "brewery_type") := funext hbt
      rw [hfg]
    rw [hfm]
  congr 1
  congr 1
  exact List.map_congr_left (fun p _ => hbuild p)

/-- Market specialization ignores a record rewrite that preserves the
state and brewery_type cells. -/
theorem marketSpecializationRes_invariant (base : List Row) (cols1 cols2 : List String)
    (g : Row → Row)
    (hsp : ∀ r, cellR (g r) "state_province" = cellR r "state_province")
    (hbt : ∀ r, cellR (g r) "brewery_type" = cellR r "brewery_type") :
    marketSpecializationRes { cols := cols1, rows := base.map g } =
      marketSpecializationRes { cols := cols2, rows := base } := by
  have hkey : ∀ r, keyTuple ["state_province"] (g r) = keyTuple ["state_province"] r := by
    intro r
    simp [keyTuple, hsp r]
  unfold marketSpecializationRes
  simp only []
  rw [groupTuples_map base _ _ g hkey, List.map_map]
  congr 1
  congr 1
  apply List.map_congr_left
  intro p _
  simp only [Function.comp]
  have hfil : (p.2.map g).filter
      (fun r => decide (cellR r "brewery_type" = some (Value.str "micro"))) =
      (p.2.filter (fun r => decide (cellR r "brewery_type" = some (Value.str "micro")))).map g := by
    rw [List.filter_map]
    congr 1
    apply List.filter_congr
    intro r _
    simp only [Function.comp]
    rw [hbt r]
  rw [hfil]
  simp

/-- The trust score depends only on the state and completeness cells of
the (rewritten) records. -/
theorem dataTrustRes_invariant (base : List Row) (cols1 cols2 : List String)
    (g g' : Row → Row)
    (hsp : ∀ r, cellR (g r) "state_province" = cellR r "state_province")
    (hsp' : ∀ r, cellR (g' r) "state_province" = cellR r "state_province")
    (hcp : ∀ r, cellR (g r) "completeness" = cellR (g' r) "completeness") :
    dataTrustRes { cols := cols1, rows := base.map g } =
      dataTrustRes { cols := cols2, rows := base.map g' } := by
  have hkey : ∀ r, keyTuple ["state_province"] (g r) = keyTuple ["state_province"] r := by
    intro r
    simp [keyTuple, hsp r]
  have hkey' : ∀ r, keyTuple ["state_province"] (g' r) = keyTuple ["state_province"] r := by
    intro r
    simp [keyTuple, hsp' r]
  unfold dataTrustRes
  simp only []
  rw [groupTuples_map base _ _ g hkey, groupTuples_map base _ _ g' hkey',
    List.map_map, List.map_map]
  congr 1
  congr 1
  apply List.map_congr_left
  intro p _
  simp only [Function.comp]
  have hqs : (p.2.map g).map (fun r => numCell (cellR r "completeness")) =
      (p.2.map g').map (fun r => numCell (cellR r "completeness")) := by
    rw [List.map_map, List.map_map]
    apply List.map_congr_left
    intro r _
    simp only [Function.comp]
    rw [hcp r]
  rw [hqs]

/-- The completeness fraction only reads the three critical fields, which
the digital-maturity helpers do not touch. -/
theorem completenessOf_dmRowFun (r : Row) : completenessOf (dmRowFun r) = completenessOf r := by
  unfold completenessOf
  have hcells : ∀ c ∈ ["address_1", "phone", "website_url"],
      ((cellR (dmRowFun r) c).isSome : Bool) = ((cellR r c).isSome : Bool) := by
    intro c hc
    fin_cases hc <;>
      rw [dmRowFun_cellR_ne r _ (by decide) (by decide) (by decide)]
  rw [List.filter_congr hcells]

/-- The chained regional diversity (after agg_digital_maturity mutated the
frame) equals regional diversity of the untouched frame. -/
theorem regionalDiversityRes_dmAug (df : DataFrame) :
    regionalDiversityRes (dmAug df) = regionalDiversityRes df := by
  have h1 : regionalDiversityRes (dmAug df) =
      regionalDiversityRes { cols := ([] : List String), rows := df.rows.map dmRowFun } :=
    regionalDiversityRes_rows_only _ _ (by rw [dmAug_rows])
  rw [h1]
  have h2 := regionalDiversityRes_invariant df.rows [] df.cols dmRowFun
    (fun r => dmRowFun_cellR_ne r _ (by decide) (by decide) (by decide))
    (fun r => dmRowFun_cellR_ne r _ (by decide) (by decide) (by decide))
  rw [h2]

/-- Same statement for market specialization. -/
theorem marketSpecializationRes_dmAug (df : DataFrame) :
    marketSpecializationRes (dmAug df) = marketSpecializationRes df := by
  have h1 : marketSpecializationRes (dmAug df) =
      marketSpecializationRes { cols := ([] : List String), rows := df.rows.map dmRowFun } :=
    marketSpecializationRes_rows_only _ _ (by rw [dmAug_rows])
  rw [h1]
  have h2 := marketSpecializationRes_invariant df.rows [] df.cols dmRowFun
    (fun r => dmRowFun_cellR_ne r _ (by decide) (by decide) (by decide))
    (fun r => dmRowFun_cellR_ne r _ (by decide) (by decide) (by decide))
  rw [h2]

/-- The chained trust score (computed after agg_digital_maturity mutated
the frame) equals the trust score of the untouched frame. -/
theorem dataTrustRes_dts_dmAug (df : DataFrame) :
    dataTrustRes (dtsAug (dmAug df)) = dataTrustRes (dtsAug df) := by
  have ha : dataTrustRes (dtsAug (dmAug df)) =
      dataTrustRes ⟨[], df.rows.map (fun r => dtsRowFun (dmRowFun r))⟩ := by
    apply dataTrustRes_rows_only
    rw [dtsAug_rows, dmAug_rows, List.map_map]
    rfl
  have hb : dataTrustRes (dtsAug df) =
      dataTrustRes { cols := ([] : List String), rows := df.rows.map dtsRowFun } :=
    dataTrustRes_rows_only _ _ (by rw [dtsAug_rows])
  rw [ha, hb]
  apply dataTrustRes_invariant df.rows [] [] (fun r => dtsRowFun (dmRowFun r)) dtsRowFun
  · intro r
    rw [dtsRowFun_cellR_ne _ _ (by decide),
      dmRowFun_cellR_ne r _ (by decide) (by decide) (by decide)]
  · intro r
    exact dtsRowFun_cellR_ne _ _ (by decide)
  · intro r
    unfold dtsRowFun
    rw [cellR_setCellA_self, cellR_setCellA_self, completenessOf_dmRowFun]

/-- Inversion of a successful bind. -/
theorem bindOkInv {ε α β : Type} (e : Except ε α) (k : α → Except ε β) (out : β)
    (h : e >>= k = Except.ok out) : ∃ a, e = Except.ok a ∧ k a = Except.ok out := by
  cases e with
  | error _ => exact Except.noConfusion h
  | ok a => exact ⟨a, rfl, h⟩

/-- A successful aggregation 6 had its columns present. -/
theorem agg6_ok_cond (d : DataFrame) (out : DataFrame × DataFrame)
    (h : agg_regional_diversity d = Except.ok out) :
    (["state_province", "brewery_type"].all (fun c => d.cols.contains c)) = true := by
  unfold agg_regional_diversity requireCols at h
  split at h
  · next hcond => exact hcond
  · exact Except.noConfusion h

/-- A successful aggregation 7 had its columns present. -/
theorem agg7_ok_cond (d : DataFrame) (out : DataFrame × DataFrame)
    (h : agg_market_specialization d = Except.ok out) :
    (["brewery_type", "state_province"].all (fun c => d.cols.contains c)) = true := by
  unfold agg_market_specialization requireCols at h
  split at h
  · next hcond => exact hcond
  · exact Except.noConfusion h

/-- A successful aggregation 8 had its columns present. -/
theorem agg8_ok_cond (d : DataFrame) (out : DataFrame × DataFrame)
    (h : agg_data_trust_score d = Except.ok out) :
    (["address_1", "phone", "website_url", "state_province"].all
      (fun c => d.cols.contains c)) = true := by
  unfold agg_data_trust_score requireCols at h
  split at h
  · next hcond => exact hcond
  · exact Except.noConfusion h

/-- Column-presence checks see through the digital-maturity helpers. -/
theorem all_contains_of_dmAug (df : DataFrame) (cs : List String)
    (hne : ∀ c ∈ cs, c ≠ "has_website" ∧ c ≠ "has_phone" ∧ c ≠ "digitally_ready")
    (h : cs.all (fun c => (dmAug df).cols.contains c) = true) :
    cs.all (fun c => df.cols.contains c) = true := by
  rw [List.all_eq_true] at h ⊢
  intro c hc
  obtain ⟨h1, h2, h3⟩ := hne c hc
  rw [← dmAug_contains_ne df c h1 h2 h3]
  exact h c hc

/-- C1 (amended): aggregations 1-4, 6 and 7 return their input untouched;
agg_digital_maturity and agg_data_trust_score keep the records and every
pre-existing non-helper column but append helper columns to their input;
and the tables gold.process_gold produces equal the results of running
each aggregation on the untouched cleaned Dataset, so no aggregation's
result depends on which others ran before it. -/
theorem C1_aggregation_purity (df : DataFrame) :
    (∀ out, agg_breweries_by_type_and_state df = Except.ok out → out.1 = df) ∧
    (∀ out, agg_breweries_by_country_and_type df = Except.ok out → out.1 = df) ∧
    (∀ out, agg_top_cities df 20 = Except.ok out → out.1 = df) ∧
    (∀ out, agg_geo_coverage df = Except.ok out → out.1 = df) ∧
    (∀ out, agg_regional_diversity df = Except.ok out → out.1 = df) ∧
    (∀ out, agg_market_specialization df = Except.ok out → out.1 = df) ∧
    (∀ out, agg_digital_maturity df = Except.ok out →
      out.1.rows.length = df.rows.length ∧
      ∀ c, c ≠ "has_website" → c ≠ "has_phone" → c ≠ "digitally_ready" →
        out.1.getCol c = df.getCol c) ∧
    (∀ out, agg_data_trust_score df = Except.ok out →
      out.1.rows.length = df.rows.length ∧
      ∀ c, c ≠ "completeness" → out.1.getCol c = df.getCol c) ∧
    (∀ tables, run_gold_aggregations df = Except.ok tables →
      ∃ r1 r2 r3 r4 d5 r5 r6 r7 d8 r8,
        agg_breweries_by_type_and_state df = Except.ok (df, r1) ∧
        agg_breweries_by_country_and_type df = Except.ok (df, r2) ∧
        agg_top_cities df 20 = Except.ok (df, r3) ∧
        agg_geo_coverage df = Except.ok (df, r4) ∧
        agg_digital_maturity df = Except.ok (d5, r5) ∧
        agg_regional_diversity df = Except.ok (df, r6) ∧
        agg_market_specialization df = Except.ok (df, r7) ∧
        agg_data_trust_score df = Except.ok (d8, r8) ∧
        tables = [("breweries_by_type_and_state", r1), ("breweries_by_country_and_type", r2),
          ("top_cities_by_brewery_count", r3), ("geo_coverage_by_state", r4),
          ("digital_maturity", r5), ("regional_diversity", r6),
          ("market_specialization", r7), ("data_trust_score", r8)]) := by
  refine ⟨?_, ?_, ?_, ?_, ?_, ?_, ?_, ?_, ?_⟩
  · intro out h
    rw [agg1_inv df out h]
  · intro out h
    rw [agg2_inv df out h]
  · intro out h
    rw [agg3_inv df 20 out h]
  · intro out h
    rw [agg4_inv df out h]
  · intro out h
    rw [agg6_inv df out h]
  · intro out h
    rw [agg7_inv df out h]
  · intro out h
    rw [agg5_inv df out h]
    exact ⟨dmAug_rows_length df, fun c h1 h2 h3 => dmAug_getCol_ne df c h1 h2 h3⟩
  · intro out h
    rw [agg8_inv df out h]
    exact ⟨dtsAug_rows_length df, fun c hc => dtsAug_getCol_ne df c hc⟩
  · intro tables h
    unfold run_gold_aggregations at h
    obtain ⟨p1, h1, h⟩ := bindOkInv _ _ _ h
    obtain hp1 := agg1_inv df p1 h1
    subst hp1
    obtain ⟨p2, h2, h⟩ := bindOkInv _ _ _ h
    obtain hp2 := agg2_inv df p2 h2
    subst hp2
    obtain ⟨p3, h3, h⟩ := bindOkInv _ _ _ h
    obtain hp3 := agg3_inv df 20 p3 h3
    subst hp3
    obtain ⟨p4, h4, h⟩ := bindOkInv _ _ _ h
    obtain hp4 := agg4_inv df p4 h4
    subst hp4
    obtain ⟨p5, h5, h⟩ := bindOkInv _ _ _ h
    obtain hp5 := agg5_inv df p5 h5
    subst hp5
    obtain ⟨p6, h6, h⟩ := bindOkInv _ _ _ h
    have hc6 : (["state_province", "brewery_type"].all (fun c => df.cols.contains c)) = true :=
      all_contains_of_dmAug df _ (by decide) (agg6_ok_cond (dmAug df) p6 h6)
    obtain hp6 := agg6_inv (dmAug df) p6 h6
    subst hp6
    obtain ⟨p7, h7, h⟩ := bindOkInv _ _ _ h
    have hc7 : (["brewery_type", "state_province"].all (fun c => df.cols.contains c)) = true :=
      all_contains_of_dmAug df _ (by decide) (agg7_ok_cond (dmAug df) p7 h7)
    obtain hp7 := agg7_inv (dmAug df) p7 h7
    subst hp7
    obtain ⟨p8, h8, h⟩ := bindOkInv _ _ _ h
    have hc8 : (["address_1", "phone", "website_url", "state_province"].all
        (fun c => df.cols.contains c)) = true :=
      all_contains_of_dmAug df _ (by decide) (agg8_ok_cond (dmAug df) p8 h8)
    obtain hp8 := agg8_inv (dmAug df) p8 h8
    subst hp8
    have htab := (Except.ok.inj h).symm
    have h6' : agg_regional_diversity df =
        Except.ok (df, regionalDiversityRes (dmAug df)) := by
      rw [agg6_ok df hc6, regionalDiversityRes_dmAug df]
    have h7' : agg_market_specialization df =
        Except.ok (df, marketSpecializationRes (dmAug df)) := by
      rw [agg7_ok df hc7, marketSpecializationRes_dmAug df]
    have h8' : agg_data_trust_score df =
        Except.ok (dtsAug df, dataTrustRes (dtsAug (dmAug df))) := by
      rw [agg8_ok df hc8, dataTrustRes_dts_dmAug df]
    exact ⟨_, _, _, _, dmAug df, _, regionalDiversityRes (dmAug df),
      marketSpecializationRes (dmAug df), dtsAug df, dataTrustRes (dtsAug (dmAug df)),
      h1, h2, h3, h4, h5, h6', h7', h8', htab⟩

/-- A concrete cleaned record for exercising agg_digital_maturity. -/
def dmExampleDf : DataFrame :=
  { cols := ["id", "state_province", "website_url", "phone"],
    rows := [[("id", some (Value.str "1")), ("state_province", some (Value.str "CA")),
      ("website_url", none), ("phone", none)]] }

/-- Counterexample to C1 as stated: agg_digital_maturity succeeds on a
concrete Dataset and hands back an input object that differs from the
input (three helper columns were added), so that aggregation is not a
pure function leaving its input unchanged. -/
theorem C1_counterexample_mutation :
    (agg_digital_maturity dmExampleDf).isOk = true ∧
    (agg_digital_maturity dmExampleDf).map Prod.fst ≠ Except.ok dmExampleDf := by
  constructor
  · rfl
  · rw [agg5_ok dmExampleDf (by decide)]
    intro hEq
    have h2 : dmAug dmExampleDf = dmExampleDf := Except.ok.inj hEq
    exact absurd (congrArg DataFrame.cols h2) (by decide)

/-- Witness for C1 at a concrete Dataset: the mutated frame keeps the
record count and the pre-existing columns. -/
theorem C1_aggregation_purity_witness :
    ((dmAug dmExampleDf).rows.length = dmExampleDf.rows.length) ∧
    (dmAug dmExampleDf).getCol "state_province" = dmExampleDf.getCol "state_province" := by
  have h5 : agg_digital_maturity dmExampleDf =
      Except.ok (dmAug dmExampleDf, digitalMaturityRes (dmAug dmExampleDf)) :=
    agg5_ok dmExampleDf (by decide)
  have h := (C1_aggregation_purity dmExampleDf).2.2.2.2.2.2.1 _ h5
  exact ⟨h.1, h.2 "state_province" (by decide) (by decide) (by decide)⟩

/-! Null keys in group-bys (claim C2). -/

/-- In a dropna groupby on state_province, every group key is non-null. -/
theorem groupTuples_state_head_ne_none (rows : List Row)
    (p : List (Option Value) × List Row)
    (hp : p ∈ groupTuples rows ["state_province"] true) :
    p.1.headD none ≠ none := by
  have hk : p.1 ∈ (groupTuples rows ["state_province"] true).map Prod.fst :=
    List.mem_map.mpr ⟨p, hp, rfl⟩
  obtain ⟨hall, r, _, heq⟩ := groupTuples_dropna_keys rows _ _ hk
  rw [← heq]
  rw [← heq] at hall
  simp only [keyTuple, List.map_cons, List.map_nil, List.all_cons, List.all_nil,
    Bool.and_true, List.headD_cons] at hall ⊢
  exact Option.ne_none_iff_isSome.mpr hall

/-- Every digital-maturity output record carries a non-null state. -/
theorem digitalMaturityRes_state_ne_none (d : DataFrame) (row' : Row)
    (h : row' ∈ (digitalMaturityRes d).rows) :
    cellR row' "state_province" ≠ none := by
  unfold digitalMaturityRes sortRows at h
  simp only [] at h
  rw [mem_sortByLe] at h
  obtain ⟨p, hp, hb⟩ := List.mem_map.mp h
  have hcell : cellR row' "state_province" = p.1.headD none := by
    rw [← hb, cellR_cons_of_pos _ _ _ (by simp)]
  rw [hcell]
  exact groupTuples_state_head_ne_none d.rows p hp

/-- Every regional-diversity output record carries a non-null state. -/
theorem regionalDiversityRes_state_ne_none (d : DataFrame) (row' : Row)
    (h : row' ∈ (regionalDiversityRes d).rows) :
    cellR row' "state_province" ≠ none := by
  unfold regionalDiversityRes sortRows at h
  simp only [] at h
  rw [mem_sortByLe] at h
  obtain ⟨p, hp, hb⟩ := List.mem_map.mp h
  have hcell : cellR row' "state_province" = p.1.headD none := by
    rw [← hb, cellR_cons_of_pos _ _ _ (by simp)]
  rw [hcell]
  exact groupTuples_state_head_ne_none d.rows p hp

/-- Every market-specialization output record carries a non-null state. -/
theorem marketSpecializationRes_state_ne_none (d : DataFrame) (row' : Row)
    (h : row' ∈ (marketSpecializationRes d).rows) :
    cellR row' "state_province" ≠ none := by
  unfold marketSpecializationRes sortRows at h
  simp only [] at h
  rw [mem_sortByLe] at h
  obtain ⟨p, hp, hb⟩ := List.mem_map.mp h
  have hcell : cellR row' "state_province" = p.1.headD none := by
    rw [← hb, cellR_cons_of_pos _ _ _ (by simp)]
  rw [hcell]
  exact groupTuples_state_head_ne_none d.rows p hp

/-- Every trust-score output record carries a non-null state. -/
theorem dataTrustRes_state_ne_none (d : DataFrame) (row' : Row)
    (h : row' ∈ (dataTrustRes d).rows) :
    cellR row' "state_province" ≠ none := by
  unfold dataTrustRes sortRows at h
  simp only [] at h
  rw [mem_sortByLe] at h
  obtain ⟨p, hp, hb⟩ := List.mem_map.mp h
  have hcell : cellR row' "state_province" = p.1.headD none := by
    rw [← hb, cellR_cons_of_pos _ _ _ (by simp)]
  rw [hcell]
  exact groupTuples_state_head_ne_none d.rows p hp

/-- C2 (amended): aggregations 1, 2 and 4 group with dropna=False, so every
record — null keys included — has a representative group in the output;
aggregation 3 does too, but only before its top-N cut; aggregations 5-8
group by state with the pandas dropna default, so records with a null
state_province are dropped and no output record carries a null state. -/
theorem C2_null_group_keys (df : DataFrame) :
    (∀ out, agg_breweries_by_type_and_state df = Except.ok out →
      ∀ r ∈ df.rows, ∃ row' ∈ out.2.rows,
        cellR row' "brewery_type" = cellR r "brewery_type" ∧
        cellR row' "state_province" = cellR r "state_province") ∧
    (∀ out, agg_breweries_by_country_and_type df = Except.ok out →
      ∀ r ∈ df.rows, ∃ row' ∈ out.2.rows,
        cellR row' "country" = cellR r "country" ∧
        cellR row' "brewery_type" = cellR r "brewery_type") ∧
    (∀ out, agg_geo_coverage df = Except.ok out →
      ∀ r ∈ df.rows, ∃ row' ∈ out.2.rows,
        cellR row' "country" = cellR r "country" ∧
        cellR row' "state_province" = cellR r "state_province" ∧
        cellR row' "city" = cellR r "city") ∧
    (∀ r ∈ df.rows, ∃ row' ∈ (countAggRes df ["city", "state_province", "country"]
        [("brewery_count", false)]).rows,
      cellR row' "city" = cellR r "city" ∧
      cellR row' "state_province" = cellR r "state_province" ∧
      cellR row' "country" = cellR r "country") ∧
    (∀ out, agg_digital_maturity df = Except.ok out →
      ∀ row' ∈ out.2.rows, cellR row' "state_province" ≠ none) ∧
    (∀ out, agg_regional_diversity df = Except.ok out →
      ∀ row' ∈ out.2.rows, cellR row' "state_province" ≠ none) ∧
    (∀ out, agg_market_specialization df = Except.ok out →
      ∀ row' ∈ out.2.rows, cellR row' "state_province" ≠ none) ∧
    (∀ out, agg_data_trust_score df = Except.ok out →
      ∀ row' ∈ out.2.rows, cellR row' "state_province" ≠ none) := by
  refine ⟨?_, ?_, ?_, ?_, ?_, ?_, ?_, ?_⟩
  · intro out h r hr
    obtain rfl := agg1_inv df out h
    obtain ⟨row', hmem, hk⟩ := countAggRes_represents df ["brewery_type", "state_province"]
      [("state_province", true), ("brewery_count", false)] (by decide) r hr
    exact ⟨row', hmem, hk "brewery_type" (by decide), hk "state_province" (by decide)⟩
  · intro out h r hr
    obtain rfl := agg2_inv df out h
    obtain ⟨row', hmem, hk⟩ := countAggRes_represents df ["country", "brewery_type"]
      [("country", true), ("brewery_count", false)] (by decide) r hr
    exact ⟨row', hmem, hk "country" (by decide), hk "brewery_type" (by decide)⟩
  · intro out h r hr
    obtain rfl := agg4_inv df out h
    obtain ⟨row', hmem, hk⟩ := countAggRes_represents df ["country", "state_province", "city"]
      [("country", true), ("state_province", true), ("brewery_count", false)] (by decide) r hr
    exact ⟨row', hmem, hk "country" (by decide), hk "state_province" (by decide),
      hk "city" (by decide)⟩
  · intro r hr
    obtain ⟨row', hmem, hk⟩ := countAggRes_represents df ["city", "state_province", "country"]
      [("brewery_count", false)] (by decide) r hr
    exact ⟨row', hmem, hk "city" (by decide), hk "state_province" (by decide),
      hk "country" (by decide)⟩
  · intro out h row' hrow
    obtain rfl := agg5_inv df out h
    exact digitalMaturityRes_state_ne_none _ row' hrow
  · intro out h row' hrow
    obtain rfl := agg6_inv df out h
    exact regionalDiversityRes_state_ne_none _ row' hrow
  · intro out h row' hrow
    obtain rfl := agg7_inv df out h
    exact marketSpecializationRes_state_ne_none _ row' hrow
  · intro out h row' hrow
    obtain rfl := agg8_inv df out h
    exact dataTrustRes_state_ne_none _ row' hrow

/-- A concrete cleaned Dataset with one null-state record and one Texas
record. -/
def nullStateDf : DataFrame :=
  { cols := ["id", "state_province", "brewery_type"],
    rows := [
      [("id", some (Value.str "1")), ("state_province", none),
        ("brewery_type", some (Value.str "micro"))],
      [("id", some (Value.str "2")), ("state_province", some (Value.str "TX")),
        ("brewery_type", some (Value.str "micro"))]] }

/-- Counterexample to C2 as stated: agg_regional_diversity on a Dataset
with a null-state record succeeds, yet its output carries only the TX
group — the null-state record formed no group and was silently dropped. -/
theorem C2_counterexample_null_dropped :
    (agg_regional_diversity nullStateDf).isOk = true ∧
    (agg_regional_diversity nullStateDf).map
      (fun p => p.2.rows.map (fun row => cellR row "state_province")) =
      Except.ok [some (Value.str "TX")] := by
  constructor
  · rfl
  · rfl

/-- Witness for C2 at nullStateDf: the null-state record keeps a group in
aggregation 1, and no regional-diversity output record has a null state. -/
theorem C2_null_group_keys_witness :
    (∃ out, agg_breweries_by_type_and_state nullStateDf = Except.ok out ∧
      ∃ row' ∈ out.2.rows,
        cellR row' "brewery_type" = some (Value.str "micro") ∧
        cellR row' "state_province" = none) ∧
    (∃ out, agg_regional_diversity nullStateDf = Except.ok out ∧
      ∀ row' ∈ out.2.rows, cellR row' "state_province" ≠ none) := by
  constructor
  · obtain ⟨out, hout⟩ := exists_ok_of_isOk (agg_breweries_by_type_and_state nullStateDf)
      (by rfl)
    obtain ⟨row', hmem, hb, hs⟩ :=
      (C2_null_group_keys nullStateDf).1 out hout
        [("id", some (Value.str "1")), ("state_province", none),
          ("brewery_type", some (Value.str "micro"))] (by simp [nullStateDf])
    refine ⟨out, hout, row', hmem, ?_, ?_⟩
    · rw [hb]
      rfl
    · rw [hs]
      rfl
  · obtain ⟨out, hout⟩ := exists_ok_of_isOk (agg_regional_diversity nullStateDf) (by rfl)
    exact ⟨out, hout, (C2_null_group_keys nullStateDf).2.2.2.2.2.1 out hout⟩

/-! The Gold engine on an empty cleaned Dataset (claim C7). -/

/-- Rewriting a successful step lets the rest of a bind chain proceed. -/
theorem bind_ok {ε α β : Type} (e : Except ε α) (a : α) (k : α → Except ε β)
    (h : e = Except.ok a) : e >>= k = k a := by
  rw [h]
  rfl

/-- Counted aggregation tables over an empty frame are empty. -/
theorem countAggRes_empty (df : DataFrame) (keys : List String) (specs : List (String × Bool))
    (h0 : df.rows = []) : countAggRes df keys specs = ⟨keys ++ ["brewery_count"], []⟩ := by
  unfold countAggRes
  rw [h0, groupTuples_nil]
  rfl

/-- The digital-maturity table over an empty frame is empty. -/
theorem digitalMaturityRes_empty (d : DataFrame) (h0 : d.rows = []) :
    digitalMaturityRes d =
      ⟨["state_province", "total_breweries", "digitally_ready_count", "maturity_score"], []⟩ := by
  unfold digitalMaturityRes
  rw [h0, groupTuples_nil]
  rfl

/-- The regional-diversity table over an empty frame is empty. -/
theorem regionalDiversityRes_empty (d : DataFrame) (h0 : d.rows = []) :
    regionalDiversityRes d = ⟨["state_province", "unique_brewery_types"], []⟩ := by
  unfold regionalDiversityRes
  rw [h0, groupTuples_nil]
  rfl

/-- The market-specialization table over an empty frame is empty. -/
theorem marketSpecializationRes_empty (d : DataFrame) (h0 : d.rows = []) :
    marketSpecializationRes d =
      ⟨["state_province", "total_brewery_count", "micro_brewery_count"], []⟩ := by
  unfold marketSpecializationRes
  rw [h0, groupTuples_nil]
  rfl

/-- The trust-score table over an empty frame is empty. -/
theorem dataTrustRes_empty (d : DataFrame) (h0 : d.rows = []) :
    dataTrustRes d = ⟨["state_province", "trust_score"], []⟩ := by
  unfold dataTrustRes
  rw [h0, groupTuples_nil]
  rfl

/-- The eight zero-row tables the Gold engine produces from an empty
cleaned Dataset. -/
def emptyGoldTables : List (String × DataFrame) :=
  [("breweries_by_type_and_state", ⟨["brewery_type", "state_province", "brewery_count"], []⟩),
   ("breweries_by_country_and_type", ⟨["country", "brewery_type", "brewery_count"], []⟩),
   ("top_cities_by_brewery_count", ⟨["city", "state_province", "country", "brewery_count"], []⟩),
   ("geo_coverage_by_state", ⟨["country", "state_province", "city", "brewery_count"], []⟩),
   ("digital_maturity",
     ⟨["state_province", "total_breweries", "digitally_ready_count", "maturity_score"], []⟩),
   ("regional_diversity", ⟨["state_province", "unique_brewery_types"], []⟩),
   ("market_specialization", ⟨["state_province", "total_brewery_count", "micro_brewery_count"], []⟩),
   ("data_trust_score", ⟨["state_province", "trust_score"], []⟩)]

/-- C7: on an empty cleaned Dataset that carries the expected columns,
every aggregation returns a zero-row table instead of raising; a volume
check with one required record fails on such a table with its descriptive
message; and the quality suite raises, so process_gold ends in the raised
error and the Gold save loop is never reached. -/
theorem C7_empty_gold (df : DataFrame) (h0 : df.rows = [])
    (hcols : (["brewery_type", "state_province", "id", "country", "city",
      "website_url", "phone", "address_1"].all (fun c => df.cols.contains c)) = true) :
    (run_gold_aggregations df = Except.ok emptyGoldTables ∧
      ∀ p ∈ emptyGoldTables, (p.2 : DataFrame).rows = ([] : List Row)) ∧
    (∀ t : DataFrame, t.rows = [] → check_volume t 1 none =
      { check_name := "check_volume", passed := false,
        details := "Contagem de linhas 0 está abaixo do mínimo de 1." }) ∧
    run_gold_dq emptyGoldTables =
      Except.error "A suíte de qualidade de dados falhou. Veja o relatório acima." ∧
    process_gold df =
      Except.error "A suíte de qualidade de dados falhou. Veja o relatório acima." := by
  rw [List.all_eq_true] at hcols
  have hbt := hcols "brewery_type" (by decide)
  have hsp := hcols "state_province" (by decide)
  have hid := hcols "id" (by decide)
  have hco := hcols "country" (by decide)
  have hci := hcols "city" (by decide)
  have hwu := hcols "website_url" (by decide)
  have hph := hcols "phone" (by decide)
  have had := hcols "address_1" (by decide)
  have hdm0 : (dmAug df).rows = [] := by
    rw [dmAug_rows, h0]
    rfl
  have hdmc : ∀ c, c ≠ "has_website" → c ≠ "has_phone" → c ≠ "digitally_ready" →
      df.cols.contains c = true → (dmAug df).cols.contains c = true := by
    intro c hx1 hx2 hx3 hc
    rw [dmAug_contains_ne df c hx1 hx2 hx3]
    exact hc
  have e1 : agg_breweries_by_type_and_state df =
      Except.ok (df, (⟨["brewery_type", "state_province", "brewery_count"], []⟩ : DataFrame)) := by
    rw [agg1_ok df (by rw [List.all_eq_true]; intro c hc; fin_cases hc <;> assumption),
      countAggRes_empty df _ _ h0]
    rfl
  have e2 : agg_breweries_by_country_and_type df =
      Except.ok (df, (⟨["country", "brewery_type", "brewery_count"], []⟩ : DataFrame)) := by
    rw [agg2_ok df (by rw [List.all_eq_true]; intro c hc; fin_cases hc <;> assumption),
      countAggRes_empty df _ _ h0]
    rfl
  have e3 : agg_top_cities df 20 =
      Except.ok (df, (⟨["city", "state_province", "country", "brewery_count"], []⟩ : DataFrame)) := by
    rw [agg3_ok df 20 (by rw [List.all_eq_true]; intro c hc; fin_cases hc <;> assumption),
      countAggRes_empty df _ _ h0]
    rfl
  have e4 : agg_geo_coverage df =
      Except.ok (df, (⟨["country", "state_province", "city", "brewery_count"], []⟩ : DataFrame)) := by
    rw [agg4_ok df (by rw [List.all_eq_true]; intro c hc; fin_cases hc <;> assumption),
      countAggRes_empty df _ _ h0]
    rfl
  have e5 : agg_digital_maturity df =
      Except.ok (dmAug df, (⟨["state_province", "total_breweries",
        "digitally_ready_count", "maturity_score"], []⟩ : DataFrame)) := by
    rw [agg5_ok df (by rw [List.all_eq_true]; intro c hc; fin_cases hc <;> assumption),
      digitalMaturityRes_empty (dmAug df) hdm0]
  have e6 : agg_regional_diversity (dmAug df) =
      Except.ok (dmAug df, (⟨["state_province", "unique_brewery_types"], []⟩ : DataFrame)) := by
    rw [agg6_ok (dmAug df) ?hc, regionalDiversityRes_empty (dmAug df) hdm0]
    case hc =>
      rw [List.all_eq_true]
      intro c hc
      fin_cases hc <;> exact hdmc _ (by decide) (by decide) (by decide) (by assumption)
  have e7 : agg_market_specialization (dmAug df) =
      Except.ok (dmAug df, (⟨["state_province", "total_brewery_count",
        "micro_brewery_count"], []⟩ : DataFrame)) := by
    rw [agg7_ok (dmAug df) ?hc, marketSpecializationRes_empty (dmAug df) hdm0]
    case hc =>
      rw [List.all_eq_true]
      intro c hc
      fin_cases hc <;> exact hdmc _ (by decide) (by decide) (by decide) (by assumption)
  have e8 : agg_data_trust_score (dmAug df) =
      Except.ok (dtsAug (dmAug df), (⟨["state_province", "trust_score"], []⟩ : DataFrame)) := by
    rw [agg8_ok (dmAug df) ?hc, dataTrustRes_empty (dtsAug (dmAug df))
      (by rw [dtsAug_rows, hdm0]; rfl)]
    case hc =>
      rw [List.all_eq_true]
      intro c hc
      fin_cases hc <;> exact hdmc _ (by decide) (by decide) (by decide) (by assumption)
  have hrun : run_gold_aggregations df = Except.ok emptyGoldTables := by
    unfold run_gold_aggregations
    rw [bind_ok _ _ _ e1]
    simp only []
    rw [bind_ok _ _ _ e2]
    simp only []
    rw [bind_ok _ _ _ e3]
    simp only []
    rw [bind_ok _ _ _ e4]
    simp only []
    rw [bind_ok _ _ _ e5]
    simp only []
    rw [bind_ok _ _ _ e6]
    simp only []
    rw [bind_ok _ _ _ e7]
    simp only []
    rw [bind_ok _ _ _ e8]
    rfl
  refine ⟨⟨hrun, by decide⟩, ?_, ?_, ?_⟩
  · intro t ht
    unfold check_volume
    rw [ht]
    rfl
  · rfl
  · unfold process_gold
    rw [bind_ok _ _ _ hrun]
    rfl

/-- A concrete empty cleaned Dataset with the expected schema. -/
def emptyCleanDf : DataFrame :=
  { cols := ["id", "brewery_type", "state_province", "country", "city",
      "website_url", "phone", "address_1"],
    rows := [] }

/-- Witness for C7 at the concrete empty cleaned Dataset. -/
theorem C7_empty_gold_witness :
    run_gold_aggregations emptyCleanDf = Except.ok emptyGoldTables ∧
    process_gold emptyCleanDf =
      Except.error "A suíte de qualidade de dados falhou. Veja o relatório acima." := by
  have h := C7_empty_gold emptyCleanDf rfl (by decide)
  exact ⟨h.1.1, h.2.2.2⟩

/-! The Bronze loader (silver.load_latest_bronze): claim C8. -/

/-- Lexicographic code-point order on character lists: how Python compares
the partition path strings that `sorted` orders. -/
def strLeListB : List Char → List Char → Bool
  | [], _ => true
  | _ :: _, [] => false
  | a :: as, b :: bs => if a = b then strLeListB as bs else decide (a.toNat ≤ b.toNat)

/-- Lexicographic code-point order on strings. -/
def strLeB (a b : String) : Bool := strLeListB a.toList b.toList

/-- The character order is reflexive. -/
theorem strLeListB_refl : ∀ l, strLeListB l l = true := by
  intro l
  induction l with
  | nil => rfl
  | cons a as ih =>
    unfold strLeListB
    rw [if_pos rfl]
    exact ih

/-- The character order is total. -/
theorem strLeListB_total : ∀ a b, strLeListB a b = true ∨ strLeListB b a = true := by
  intro a
  induction a with
  | nil =>
    intro b
    exact Or.inl rfl
  | cons x xs ih =>
    intro b
    cases b with
    | nil => exact Or.inr rfl
    | cons y ys =>
      unfold strLeListB
      by_cases hxy : x = y
      · rw [if_pos hxy, if_pos hxy.symm]
        exact ih ys
      · rw [if_neg hxy, if_neg (fun h => hxy h.symm)]
        rcases Nat.le_total x.toNat y.toNat with h | h
        · exact Or.inl (decide_eq_true h)
        · exact Or.inr (decide_eq_true h)

/-- Characters with equal code points are equal. -/
theorem char_toNat_inj (x y : Char) (h : x.toNat = y.toNat) : x = y := by
  apply Char.ext
  exact UInt32.ext h

/-- The character order is transitive. -/
theorem strLeListB_trans : ∀ a b c, strLeListB a b = true → strLeListB b c = true →
    strLeListB a c = true := by
  intro a
  induction a with
  | nil =>
    intro b c _ _
    rfl
  | cons x xs ih =>
    intro b c hab hbc
    cases b with
    | nil => exact absurd hab (by simp [strLeListB])
    | cons y ys =>
      cases c with
      | nil => exact absurd hbc (by simp [strLeListB])
      | cons z zs =>
        unfold strLeListB at hab hbc ⊢
        by_cases hxy : x = y
        · rw [if_pos hxy] at hab
          by_cases hyz : y = z
          · rw [if_pos hyz] at hbc
            rw [if_pos (hxy.trans hyz)]
            exact ih ys zs hab hbc
          · rw [if_neg hyz] at hbc
            have hxz : x ≠ z := fun h => hyz (hxy.symm.trans h)
            rw [if_neg hxz, hxy]
            exact hbc
        · rw [if_neg hxy] at hab
          have hlab : x.toNat ≤ y.toNat := of_decide_eq_true hab
          by_cases hyz : y = z
          · have hxz : x ≠ z := fun h => hxy (h.trans hyz.symm)
            rw [if_neg hxz, ← hyz]
            exact hab
          · rw [if_neg hyz] at hbc
            have hlbc : y.toNat ≤ z.toNat := of_decide_eq_true hbc
            have hxz : x ≠ z := by
              intro h
              subst h
              exact hxy (char_toNat_inj x y (Nat.le_antisymm hlab hlbc))
            rw [if_neg hxz]
            exact decide_eq_true (Nat.le_trans hlab hlbc)

/-- A Bronze partition: the ingestion-date key of its directory name and
the record lists of the JSON files it holds. -/
abbrev BronzePartition := String × List (List Row)

/-- pandas DataFrame built from a list of JSON records: columns in order
of first appearance across the records. -/
def mkDataFrame (records : List Row) : DataFrame :=
  { cols := dedupFirst (records.flatMap (fun r => r.map Prod.fst)), rows := records }

/-- silver.load_latest_bronze: sort the partition paths (with the constant
`ingestion_date=` prefix, path order is date-key order), take the last,
and concatenate the records of every file inside it; FileNotFoundError
when there is no partition or the chosen partition has no file. -/
def load_latest_bronze (partitions : List BronzePartition) : Except String DataFrame :=
  let sortedParts := sortByLe (fun a b => strLeB a.1 b.1) partitions
  match sortedParts.getLast? with
  | none => Except.error "Nenhuma partição Bronze encontrada"
  | some latest =>
    if latest.2.isEmpty then
      Except.error "Nenhum arquivo JSON encontrado na partição"
    else
      Except.ok (mkDataFrame latest.2.flatten)

/-- Insertion keeps sortedness for a total transitive order. -/
theorem pairwise_insertLe {α : Type} (le : α → α → Bool)
    (htot : ∀ a b, le a b = true ∨ le b a = true)
    (htrans : ∀ a b c, le a b = true → le b c = true → le a c = true)
    (x : α) (l : List α) (hl : l.Pairwise (fun a b => le a b = true)) :
    (insertLe le x l).Pairwise (fun a b => le a b = true) := by
  induction l with
  | nil => simp [insertLe]
  | cons y ys ih =>
    rw [List.pairwise_cons] at hl
    unfold insertLe
    by_cases hxy : le x y = true
    · rw [if_pos hxy, List.pairwise_cons]
      refine ⟨?_, ?_⟩
      · intro z hz
        rcases List.mem_cons.mp hz with rfl | hz'
        · exact hxy
        · exact htrans x y z hxy (hl.1 z hz')
      · rw [List.pairwise_cons]
        exact hl
    · rw [if_neg hxy, List.pairwise_cons]
      refine ⟨?_, ih hl.2⟩
      intro z hz
      rw [mem_insertLe] at hz
      rcases hz with hzx | hz'
      · rw [hzx]
        rcases htot x y with h | h
        · exact absurd h hxy
        · exact h
      · exact hl.1 z hz'

/-- The insertion sort sorts, for a total transitive order. -/
theorem pairwise_sortByLe {α : Type} (le : α → α → Bool)
    (htot : ∀ a b, le a b = true ∨ le b a = true)
    (htrans : ∀ a b c, le a b = true → le b c = true → le a c = true)
    (l : List α) : (sortByLe le l).Pairwise (fun a b => le a b = true) := by
  unfold sortByLe
  induction l with
  | nil => simp
  | cons y ys ih =>
    rw [List.foldr_cons]
    exact pairwise_insertLe le htot htrans y _ ih

/-- The last element of a list is one of its members. -/
theorem mem_of_getLast? {α : Type} : ∀ (l : List α) (a : α), l.getLast? = some a → a ∈ l := by
  intro l
  induction l with
  | nil =>
    intro a h
    exact absurd h (by simp)
  | cons y ys ih =>
    intro a h
    cases ys with
    | nil =>
      have : y = a := Option.some.inj h
      rw [this]
      exact List.mem_singleton_self a
    | cons z zs =>
      rw [List.getLast?_cons_cons] at h
      exact List.mem_cons_of_mem _ (ih a h)

/-- In a sorted list every member is below the last element. -/
theorem le_getLast_of_pairwise {α : Type} (le : α → α → Bool) (hrefl : ∀ a, le a a = true) :
    ∀ (l : List α), l.Pairwise (fun a b => le a b = true) →
      ∀ last, l.getLast? = some last → ∀ x ∈ l, le x last = true := by
  intro l
  induction l with
  | nil =>
    intro _ last hlast
    exact absurd hlast (by simp)
  | cons y ys ih =>
    intro hp last hlast x hx
    rw [List.pairwise_cons] at hp
    cases ys with
    | nil =>
      have h1 : y = last := Option.some.inj hlast
      rcases List.mem_cons.mp hx with rfl | hx'
      · rw [← h1]
        exact hrefl x
      · exact absurd hx' (by simp)
    | cons z zs =>
      rw [List.getLast?_cons_cons] at hlast
      rcases List.mem_cons.mp hx with rfl | hx'
      · exact hp.1 last (mem_of_getLast? _ last hlast)
      · exact ih hp.2 last hlast x hx'

/-- C8: load_latest_bronze raises exactly on an empty Bronze layer; with
partitions present it selects one whose date key is lexicographically
maximal and either raises (partition without files) or returns the
concatenation of all the records of the selected partition's files. -/
theorem C8_load_latest_bronze (partitions : List BronzePartition) :
    (partitions = [] → load_latest_bronze partitions =
      Except.error "Nenhuma partição Bronze encontrada") ∧
    (partitions ≠ [] → ∃ latest ∈ partitions,
      (∀ p ∈ partitions, strLeB p.1 latest.1 = true) ∧
      (latest.2 = [] → load_latest_bronze partitions =
        Except.error "Nenhum arquivo JSON encontrado na partição") ∧
      (latest.2 ≠ [] → load_latest_bronze partitions =
        Except.ok (mkDataFrame latest.2.flatten))) := by
  have hrefl : ∀ a : BronzePartition, strLeB a.1 a.1 = true := by
    intro a
    exact strLeListB_refl _
  have htot : ∀ a b : BronzePartition, strLeB a.1 b.1 = true ∨ strLeB b.1 a.1 = true := by
    intro a b
    exact strLeListB_total _ _
  have htrans : ∀ a b c : BronzePartition, strLeB a.1 b.1 = true → strLeB b.1 c.1 = true →
      strLeB a.1 c.1 = true := by
    intro a b c
    exact strLeListB_trans _ _ _
  constructor
  · intro h0
    subst h0
    rfl
  · intro hne
    have hsne : sortByLe (fun a b => strLeB a.1 b.1) partitions ≠ [] := by
      intro hnil
      cases hp : partitions with
      | nil => exact hne hp
      | cons a t =>
        have hmem := (mem_sortByLe (fun a b => strLeB a.1 b.1) partitions a).mpr
          (by rw [hp]; exact List.mem_cons_self _ _)
        rw [hnil] at hmem
        exact absurd hmem (by simp)
    obtain ⟨latest, hlast⟩ :
        ∃ l, (sortByLe (fun a b => strLeB a.1 b.1) partitions).getLast? = some l := by
      cases hg : (sortByLe (fun a b => strLeB a.1 b.1) partitions).getLast? with
      | none => exact absurd (List.getLast?_eq_none_iff.mp hg) hsne
      | some l => exact ⟨l, rfl⟩
    have hmem : latest ∈ partitions :=
      (mem_sortByLe _ _ _).mp (mem_of_getLast? _ _ hlast)
    refine ⟨latest, hmem, ?_, ?_, ?_⟩
    · intro p hp
      have hps := (mem_sortByLe (fun a b => strLeB a.1 b.1) partitions p).mpr hp
      exact le_getLast_of_pairwise _ hrefl _
        (pairwise_sortByLe _ htot htrans partitions) latest hlast p hps
    · intro hfe
      simp only [load_latest_bronze]
      rw [hlast]
      have he : latest.2.isEmpty = true := by
        rw [hfe]
        rfl
      show (if latest.2.isEmpty = true then
          (Except.error "Nenhum arquivo JSON encontrado na partição" :
            Except String DataFrame)
        else Except.ok (mkDataFrame latest.2.flatten)) =
        Except.error "Nenhum arquivo JSON encontrado na partição"
      rw [if_pos he]
    · intro hfne
      simp only [load_latest_bronze]
      rw [hlast]
      have he : latest.2.isEmpty = false := by
        cases hcl : latest.2 with
        | nil => exact absurd hcl hfne
        | cons a t => rfl
      show (if latest.2.isEmpty = true then
          (Except.error "Nenhum arquivo JSON encontrado na partição" :
            Except String DataFrame)
        else Except.ok (mkDataFrame latest.2.flatten)) =
        Except.ok (mkDataFrame latest.2.flatten)
      rw [if_neg (by rw [he]; simp)]

/-- A concrete Bronze layer: two dated partitions, the newest holding two
single-record files. -/
def bronzeExample : List BronzePartition :=
  [("2026-02-22", [[[("id", some (Value.str "2"))]], [[("id", some (Value.str "3"))]]]),
   ("2026-02-21", [[[("id", some (Value.str "1"))]]])]

/-- Witness for C8: on the concrete Bronze layer the loader picks the
2026-02-22 partition and concatenates its two files. -/
theorem C8_load_latest_bronze_witness :
    (∃ latest ∈ bronzeExample,
      (∀ p ∈ bronzeExample, strLeB p.1 latest.1 = true) ∧
      (latest.2 = [] → load_latest_bronze bronzeExample =
        Except.error "Nenhum arquivo JSON encontrado na partição") ∧
      (latest.2 ≠ [] → load_latest_bronze bronzeExample =
        Except.ok (mkDataFrame latest.2.flatten))) ∧
    load_latest_bronze bronzeExample = Except.ok
      (mkDataFrame [[("id", some (Value.str "2"))], [("id", some (Value.str "3"))]]) := by
  refine ⟨(C8_load_latest_bronze bronzeExample).2 (List.cons_ne_nil _ _), ?_⟩
  rfl
